import Mathlib

/-!
Verification development for the particle-source subsystem (source.cpp):
a shallow embedding of the source hierarchy (TParticleSource, TSurfaceSource,
TVolumeSource, the concrete shape generators and the TSource dispatcher),
with the external collaborators (random generator, field evaluation, mesh
rotation helper) modelled as oracle parameters. C++ doubles are modelled as
real numbers; the random generator is modelled as an abstract oracle indexed
by the global draw count, together with an explicit trace of every draw call
made, so that draw-order properties are statable.
-/

namespace PentrackSource

/-- A 3d point or vector (CPoint / CVector / double[3] in the source). -/
abbrev Point := Fin 3 → ℝ

/-- The C library function atan2(y, x), as used by the source for angle
recovery (source.cpp lines 72, 79 and 163). -/
noncomputable def atan2 (y x : ℝ) : ℝ :=
  if 0 < x then Real.arctan (y / x)
  else if x < 0 then
    (if 0 ≤ y then Real.arctan (y / x) + Real.pi else Real.arctan (y / x) - Real.pi)
  else
    (if 0 < y then Real.pi / 2 else if y < 0 then -(Real.pi / 2) else 0)

/-- The three concrete particle classes the factory can instantiate
(TNeutron, TProton, TElectron; source.cpp lines 29-34). -/
inductive PType
  | neutron
  | proton
  | electron
deriving DecidableEq

/-- Whether the particle object's mutable ID field holds its normal value or
the sentinel ID_INITIAL_NOT_FOUND assigned at source.cpp line 119. -/
inductive PStatus
  | normal
  | initialNotFound
deriving DecidableEq

/-- The particle spawn descriptor produced by the factory: the constructor
arguments of TNeutron/TProton/TElectron at source.cpp lines 30-34, plus the
mutable status field written on the exhaustion path. -/
structure TParticle where
  num : ℕ
  ptype : PType
  t : ℝ
  pos : Point
  E : ℝ
  phi : ℝ
  theta : ℝ
  polarisation : Int
  status : PStatus

/-- Modelled from the spec: the particle-type name constant for neutrons; the
header (globals.h) defining NAME_NEUTRON is not under src/, and the spec gives
the closed set of recognized type names as neutron, proton, electron. -/
def NAME_NEUTRON : String := "neutron"

/-- Modelled from the spec: the particle-type name constant for protons
(header not under src/). -/
def NAME_PROTON : String := "proton"

/-- Modelled from the spec: the particle-type name constant for electrons
(header not under src/). -/
def NAME_ELECTRON : String := "electron"

/-- The particle name names one of the three concrete particle classes, so
the factory at source.cpp lines 29-38 does not hit its exit(-1) branch. -/
def validName (name : String) : Prop :=
  name = NAME_NEUTRON ∨ name = NAME_PROTON ∨ name = NAME_ELECTRON

/-- Result of the base factory TParticleSource::CreateParticle: either a
constructed particle together with the updated ParticleCounter, or the fatal
exit(-1) path of source.cpp lines 35-38, which reports the unrecognized
particle name and terminates the process. -/
inductive FactoryResult
  | made (p : TParticle) (counter : ℕ)
  | fatalExit (code : Int) (reportedName : String)

/-- TParticleSource::CreateParticle (source.cpp lines 27-40): dispatch on the
particle name; each branch constructs the particle with id ++ParticleCounter
(pre-increment); an unrecognized name prints it and calls exit(-1). -/
def TParticleSource_CreateParticle (name : String) (counter : ℕ) (t : ℝ)
    (pos : Point) (E phi theta : ℝ) (pol : Int) : FactoryResult :=
  if name = NAME_NEUTRON then
    FactoryResult.made ⟨counter + 1, PType.neutron, t, pos, E, phi, theta, pol, PStatus.normal⟩ (counter + 1)
  else if name = NAME_PROTON then
    FactoryResult.made ⟨counter + 1, PType.proton, t, pos, E, phi, theta, pol, PStatus.normal⟩ (counter + 1)
  else if name = NAME_ELECTRON then
    FactoryResult.made ⟨counter + 1, PType.electron, t, pos, E, phi, theta, pol, PStatus.normal⟩ (counter + 1)
  else
    FactoryResult.fatalExit (-1) name

/-- One call made to the shared random generator TMCGenerator, with the
arguments it was given; the trace of these calls is the observable draw
order. -/
inductive DrawCall
  | uniformDist (lo hi : ℝ)
  | linearDist (lo hi : ℝ)
  | sinCosDist (lo hi : ℝ)
  | spectrum (name : String)
  | angularDist (name : String)
  | dicePolarisation (name : String)

/-- The random generator collaborator, abstracted: the value returned by the
k-th draw call of the run, one oracle family per primitive. The generator's
distributional behaviour is external; only sequential consumption and the
returned values matter to this subsystem. -/
structure MC where
  u : ℕ → ℝ
  lin : ℕ → ℝ
  sc : ℕ → ℝ
  spec : ℕ → ℝ
  ang : ℕ → ℝ × ℝ
  pol : ℕ → Int

/-- The generator's sequential state: how many draw calls were made so far,
and the trace of the calls in order. -/
structure MCS where
  k : ℕ
  log : List DrawCall

/-- mc.UniformDist(lo, hi): consumes one draw. -/
def MC.uniformDist (mc : MC) (s : MCS) (lo hi : ℝ) : ℝ × MCS :=
  (mc.u s.k, ⟨s.k + 1, s.log ++ [DrawCall.uniformDist lo hi]⟩)

/-- mc.LinearDist(lo, hi) (density proportional to the value): consumes one
draw. -/
def MC.linearDist (mc : MC) (s : MCS) (lo hi : ℝ) : ℝ × MCS :=
  (mc.lin s.k, ⟨s.k + 1, s.log ++ [DrawCall.linearDist lo hi]⟩)

/-- mc.SinCosDist(lo, hi) (Lambert law): consumes one draw. -/
def MC.sinCosDist (mc : MC) (s : MCS) (lo hi : ℝ) : ℝ × MCS :=
  (mc.sc s.k, ⟨s.k + 1, s.log ++ [DrawCall.sinCosDist lo hi]⟩)

/-- mc.Spectrum(name): consumes one draw. -/
def MC.spectrum (mc : MC) (s : MCS) (name : String) : ℝ × MCS :=
  (mc.spec s.k, ⟨s.k + 1, s.log ++ [DrawCall.spectrum name]⟩)

/-- mc.AngularDist(name, phi, theta): one generator call yielding both
angles. -/
def MC.angularDist (mc : MC) (s : MCS) (name : String) : (ℝ × ℝ) × MCS :=
  (mc.ang s.k, ⟨s.k + 1, s.log ++ [DrawCall.angularDist name]⟩)

/-- mc.DicePolarisation(name): consumes one draw. -/
def MC.dicePolarisation (mc : MC) (s : MCS) (name : String) : Int × MCS :=
  (mc.pol s.k, ⟨s.k + 1, s.log ++ [DrawCall.dicePolarisation name]⟩)

/-- An emitting triangle (TTriangle of the mesh collaborator): three vertices,
the precomputed area and plane normal the source reads through area() and
normal(). -/
structure TTriangle where
  tri : Fin 3 → Point
  area : ℝ
  normal : Point

/-- The triangle-selection loop of TSurfaceSource::CreateParticle
(source.cpp lines 51-56): accumulate areas in list order and stop at the
first triangle whose running sum SumA satisfies RandA <= SumA. Returns the
selected list position and triangle, or none when the loop falls off the end
of the list (in C++ the iterator is then the end iterator and the subsequent
dereference is undefined behaviour). -/
noncomputable def selectSourceTri (RandA : ℝ) : ℝ → List TTriangle → ℕ → Option (ℕ × TTriangle)
  | _, [], _ => none
  | SumA, tri :: rest, idx =>
    if RandA ≤ SumA + tri.area then some (idx, tri)
    else selectSourceTri RandA (SumA + tri.area) rest (idx + 1)

/-- The barycentric fold of source.cpp lines 59-62: when a + b > 1 replace
(a, b) by (1 - a, 1 - b). -/
noncomputable def foldBarycentric (a b : ℝ) : ℝ × ℝ :=
  if 1 < a + b then (1 - a, 1 - b) else (a, b)

/-- The point construction of source.cpp line 64: the barycentric combination
of the triangle's vertices offset along the triangle's normal by
REFLECT_TOLERANCE (a constant of geometry.h, not under src/, passed here as
the parameter tol). -/
noncomputable def trianglePoint (tri : TTriangle) (tol a b : ℝ) : Point :=
  tri.tri 0 + a • (tri.tri 1 - tri.tri 0) + b • (tri.tri 2 - tri.tri 0) + tol • tri.normal

/-- The normal-field recomputation of source.cpp lines 69-74: when
Enormal > 0, split the velocity into the component normal to the surface
(with Enormal added under the square root) and the tangential component, then
recompute the polar angle by atan2 and the kinetic energy as the sum of the
squared components. When Enormal <= 0 the angle and energy pass through
unchanged. Returns (theta_v, Ekin). -/
noncomputable def enormalBoost (Enormal Ekin theta_v : ℝ) : ℝ × ℝ :=
  if 0 < Enormal then
    let vnormal := Real.sqrt (Ekin * Real.cos theta_v * Real.cos theta_v + Enormal)
    let vtangential := Real.sqrt Ekin * Real.sin theta_v
    (atan2 vtangential vnormal, vnormal * vnormal + vtangential * vtangential)
  else (theta_v, Ekin)

/-- The local emission direction of source.cpp line 76 rotated into the
global frame by RotateVector (line 78): the collaborator rotateVector maps
the local direction (built from azimuth phi and polar angle theta relative
to the local z axis) and the triangle normal to the global direction. -/
noncomputable def surfaceEmittedDir (rotateVector : Point → Point → Point)
    (nv : Point) (phi theta : ℝ) : Point :=
  rotateVector ![Real.cos phi * Real.sin theta, Real.sin phi * Real.sin theta,
    Real.cos theta] nv

/-- The state of a TSurfaceSource: particle name, active time, the emitting
triangle subset and its cached total area, and the configured normal-field
term. -/
structure TSurfaceSourceData where
  fParticleName : String
  fActiveTime : ℝ
  sourcetris : List TTriangle
  sourcearea : ℝ
  Enormal : ℝ

/-- Result of a source-level CreateParticle call: a particle with the updated
ParticleCounter, the fatal exit of the base factory, or the undefined
end-iterator dereference of the surface selection loop. -/
inductive CreateResult
  | particle (p : TParticle) (counter : ℕ)
  | fatalExit (code : Int) (reportedName : String)
  | endDeref

/-- The particle id of a CreateResult, when one is returned. -/
def CreateResult.retNum : CreateResult → Option ℕ
  | CreateResult.particle p _ => some p.num
  | _ => none

/-- The updated ParticleCounter of a CreateResult, when a particle is
returned. -/
def CreateResult.retCounter : CreateResult → Option ℕ
  | CreateResult.particle _ c => some c
  | _ => none

/-- The status field of the returned particle, when one is returned. -/
def CreateResult.retStatus : CreateResult → Option PStatus
  | CreateResult.particle p _ => some p.status
  | _ => none

/-- TSurfaceSource::CreateParticle (source.cpp lines 48-84). tol is the
REFLECT_TOLERANCE constant and rotateVector the RotateVector helper of
globals.h (both outside src/, passed as parameters). The draws happen in
source order: spawn time, triangle selection, the two barycentric
coordinates, the energy spectrum, azimuth, Lambert polar angle, then
polarization. -/
noncomputable def TSurfaceSource_CreateParticle (tol : ℝ)
    (rotateVector : Point → Point → Point) (src : TSurfaceSourceData)
    (mc : MC) (counter : ℕ) (s : MCS) : CreateResult × MCS :=
  let r0 := mc.uniformDist s 0 src.fActiveTime
  let t := r0.1
  let r1 := mc.uniformDist r0.2 0 src.sourcearea
  let RandA := r1.1
  match selectSourceTri RandA 0 src.sourcetris 0 with
  | none => (CreateResult.endDeref, r1.2)
  | some itri =>
    let r2 := mc.uniformDist r1.2 0 1
    let a := r2.1
    let r3 := mc.uniformDist r2.2 0 1
    let b := r3.1
    let ab := foldBarycentric a b
    let p := trianglePoint itri.2 tol ab.1 ab.2
    let r4 := mc.spectrum r3.2 src.fParticleName
    let Ekin := r4.1
    let r5 := mc.uniformDist r4.2 0 (2 * Real.pi)
    let phi_v := r5.1
    let r6 := mc.sinCosDist r5.2 0 ((0.5 : ℝ) * Real.pi)
    let theta_v := r6.1
    let te := enormalBoost src.Enormal Ekin theta_v
    let theta_v2 := te.1
    let Ekin2 := te.2
    let v2 := surfaceEmittedDir rotateVector itri.2.normal phi_v theta_v2
    let phi_v2 := atan2 (v2 1) (v2 0)
    let theta_v3 := Real.arccos (v2 2)
    let r7 := mc.dicePolarisation r6.2 src.fParticleName
    let polarisation := r7.1
    match TParticleSource_CreateParticle src.fParticleName counter t p Ekin2 phi_v2 theta_v3 polarisation with
    | FactoryResult.made pp cc => (CreateResult.particle pp cc, r7.2)
    | FactoryResult.fatalExit code nm => (CreateResult.fatalExit code nm, r7.2)

/-- MAX_DICE_ROLL (source.cpp line 16): the configured cap on the number of
tries to find a particle start point. -/
def MAX_DICE_ROLL : ℕ := 42000000

/-- Result of the phase-space rejection loop of TVolumeSource::CreateParticle
(source.cpp lines 105-124). trials counts how many provisional particles
were constructed (one per loop iteration entered). found is the break at
line 116 (position and kinetic energy accepted); notFound is the sentinel
return at lines 119-121 (the provisional particle is returned with the
ID_INITIAL_NOT_FOUND status and was not deleted); exhausted is the
fall-through when the loop condition nroll <= MAX_DICE_ROLL fails (reachable
only by an acceptance with non-positive kinetic energy on the last
iteration); fatalExit propagates the factory's exit(-1). -/
inductive DiceLoopResult
  | found (trials : ℕ) (pos : Point) (E : ℝ) (counter : ℕ)
  | notFound (trials : ℕ) (p : TParticle) (counter : ℕ)
  | exhausted (pos : Point) (E : ℝ) (counter : ℕ)
  | fatalExit (code : Int) (reportedName : String)

/-- The phase-space rejection loop of TVolumeSource::CreateParticle
(source.cpp lines 105-124), one recursive step per iteration of
for (nroll = 0; nroll <= MAX_DICE_ROLL; nroll++). Each iteration constructs
a provisional particle with kinetic energy H (line 109), decrements the
counter (line 110), reads back Hstart through the field collaborator
(modelled by the oracle hstartOf, a function of the candidate position) to
derive V = Hstart - H (line 111), then accepts when the uniform(0,1) draw is
below sqrt((H-V)/H) (line 112): on acceptance E := H - V and the loop breaks
when E > 0 (lines 113-116); otherwise (and on rejection before the cap) a
new candidate position is drawn (line 123). On rejection at
nroll >= MAX_DICE_ROLL the provisional particle is returned with the
sentinel status (lines 118-122). The trials argument is bookkeeping
instrumentation counting provisional constructions (the C++ has no such
variable); the progress dots printed every 100000 rolls (lines 106-108) are
an observable side effect outside the functional model. -/
noncomputable def diceLoop (hstartOf : Point → ℝ)
    (randomPoint : MC → MCS → Point × MCS) (name : String)
    (t H phi_v theta_v : ℝ) (pol : Int) (mc : MC) (pos : Point) (E : ℝ)
    (counter : ℕ) (s : MCS) (trials nroll : ℕ) : DiceLoopResult × MCS :=
  if _h : nroll ≤ MAX_DICE_ROLL then
    match TParticleSource_CreateParticle name counter t pos H phi_v theta_v pol with
    | FactoryResult.fatalExit code nm => (DiceLoopResult.fatalExit code nm, s)
    | FactoryResult.made p c =>
      let c2 := c - 1
      let trials2 := trials + 1
      let V := hstartOf pos - H
      let rd := mc.uniformDist s 0 1
      let udraw := rd.1
      let s2 := rd.2
      if udraw < Real.sqrt ((H - V) / H) then
        let E2 := H - V
        if 0 < E2 then (DiceLoopResult.found trials2 pos E2 c2, s2)
        else
          let rp := randomPoint mc s2
          diceLoop hstartOf randomPoint name t H phi_v theta_v pol mc rp.1 E2 c2 rp.2 trials2 (nroll + 1)
      else if MAX_DICE_ROLL ≤ nroll then
        (DiceLoopResult.notFound trials2 { p with status := PStatus.initialNotFound } c2, s2)
      else
        let rp := randomPoint mc s2
        diceLoop hstartOf randomPoint name t H phi_v theta_v pol mc rp.1 E c2 rp.2 trials2 (nroll + 1)
  else (DiceLoopResult.exhausted pos E counter, s)
termination_by MAX_DICE_ROLL + 1 - nroll
decreasing_by
  all_goals omega

/-- The state of a TVolumeSource: particle name, active time and the
phase-space-weighting flag fixed at construction. -/
structure TVolumeSourceData where
  fParticleName : String
  fActiveTime : ℝ
  fPhaseSpaceWeighting : Bool

/-- TVolumeSource::CreateParticle (source.cpp lines 93-128). The virtual
RandomPointInSourceVolume of the concrete shape generator is the parameter
randomPoint; hstartOf models the field-evaluation read-back Hstart(). Draws
happen in source order: spawn time (line 94), energy spectrum (line 95),
angular distribution (line 97), polarization (line 98), and only then the
candidate position (line 100); with phase-space weighting the rejection loop
follows, and the final particle is built at line 127. -/
noncomputable def TVolumeSource_CreateParticle (hstartOf : Point → ℝ)
    (randomPoint : MC → MCS → Point × MCS) (src : TVolumeSourceData)
    (mc : MC) (counter : ℕ) (s : MCS) : CreateResult × MCS :=
  let r0 := mc.uniformDist s 0 src.fActiveTime
  let t := r0.1
  let r1 := mc.spectrum r0.2 src.fParticleName
  let E := r1.1
  let r2 := mc.angularDist r1.2 src.fParticleName
  let phi_v := r2.1.1
  let theta_v := r2.1.2
  let r3 := mc.dicePolarisation r2.2 src.fParticleName
  let polarisation := r3.1
  let rp := randomPoint mc r3.2
  let pos := rp.1
  if src.fPhaseSpaceWeighting then
    let H := E
    match diceLoop hstartOf randomPoint src.fParticleName t H phi_v theta_v polarisation mc pos E counter rp.2 0 0 with
    | (DiceLoopResult.found _ pos2 E2 c2, s2) =>
      (match TParticleSource_CreateParticle src.fParticleName c2 t pos2 E2 phi_v theta_v polarisation with
       | FactoryResult.made pp cc => (CreateResult.particle pp cc, s2)
       | FactoryResult.fatalExit code nm => (CreateResult.fatalExit code nm, s2))
    | (DiceLoopResult.notFound _ pp c2, s2) => (CreateResult.particle pp c2, s2)
    | (DiceLoopResult.exhausted pos2 E2 c2, s2) =>
      (match TParticleSource_CreateParticle src.fParticleName c2 t pos2 E2 phi_v theta_v polarisation with
       | FactoryResult.made pp cc => (CreateResult.particle pp cc, s2)
       | FactoryResult.fatalExit code nm => (CreateResult.fatalExit code nm, s2))
    | (DiceLoopResult.fatalExit code nm, s2) => (CreateResult.fatalExit code nm, s2)
  else
    match TParticleSource_CreateParticle src.fParticleName counter t pos E phi_v theta_v polarisation with
    | FactoryResult.made pp cc => (CreateResult.particle pp cc, rp.2)
    | FactoryResult.fatalExit code nm => (CreateResult.fatalExit code nm, rp.2)

/-- The shape parameters of a TCuboidVolumeSource. -/
structure TCuboidVolumeSourceData where
  xmin : ℝ
  xmax : ℝ
  ymin : ℝ
  ymax : ℝ
  zmin : ℝ
  zmax : ℝ

/-- TCuboidVolumeSource::RandomPointInSourceVolume (source.cpp lines
138-142): three independent uniform draws. -/
noncomputable def TCuboidVolumeSource_RandomPointInSourceVolume
    (d : TCuboidVolumeSourceData) (mc : MC) (s : MCS) : Point × MCS :=
  let rx := mc.uniformDist s d.xmin d.xmax
  let ry := mc.uniformDist rx.2 d.ymin d.ymax
  let rz := mc.uniformDist ry.2 d.zmin d.zmax
  (![rx.1, ry.1, rz.1], rz.2)

/-- The shape parameters of a TCylindricalVolumeSource. -/
structure TCylindricalVolumeSourceData where
  rmin : ℝ
  rmax : ℝ
  phimin : ℝ
  phimax : ℝ
  zmin : ℝ
  zmax : ℝ

/-- TCylindricalVolumeSource::RandomPointInSourceVolume (source.cpp lines
152-158): radius from the linear (density proportional to r) distribution,
azimuth and z uniform, converted to Cartesian coordinates. (The third shape
generator, TSTLVolumeSource::RandomPointInSourceVolume at lines 188-201, is
an unbounded rejection loop against the external InSolid query and is not
modelled here; no claim depends on it.) -/
noncomputable def TCylindricalVolumeSource_RandomPointInSourceVolume
    (d : TCylindricalVolumeSourceData) (mc : MC) (s : MCS) : Point × MCS :=
  let rr := mc.linearDist s d.rmin d.rmax
  let rp := mc.uniformDist rr.2 d.phimin d.phimax
  let rz := mc.uniformDist rp.2 d.zmin d.zmax
  (![rr.1 * Real.cos rp.1, rr.1 * Real.sin rp.1, rz.1], rz.2)

/-- TCylindricalSurfaceSource::InSourceVolume (source.cpp lines 161-167):
membership of a point in the configured cylindrical sector, with
r = sqrt(x^2 + y^2) and phi = atan2(y, x). -/
noncomputable def TCylindricalSurfaceSource_InSourceVolume
    (rmin rmax phimin phimax zmin zmax : ℝ) (p : Point) : Prop :=
  let r := Real.sqrt (p 0 * p 0 + p 1 * p 1)
  let phi := atan2 (p 1) (p 0)
  rmin ≤ r ∧ r ≤ rmax ∧ phimin ≤ phi ∧ phi ≤ phimax ∧ zmin ≤ p 2 ∧ p 2 ≤ zmax

/-- The construction loop shared by TCylindricalSurfaceSource (source.cpp
lines 172-177) and TSTLSurfaceSource (lines 209-214): scan the geometry
triangulation, retain a triangle when all three of its vertices satisfy the
membership predicate (InSourceVolume, respectively the auxiliary mesh's
InSolid, both returning bool), appending it to sourcetris and accumulating
sourcearea. Returns (sourcetris, sourcearea). -/
def clipLoop (inVol : Point → Bool) : List TTriangle → List TTriangle → ℝ → List TTriangle × ℝ
  | [], acc, area => (acc, area)
  | tri :: rest, acc, area =>
    if inVol (tri.tri 0) && inVol (tri.tri 1) && inVol (tri.tri 2) then
      clipLoop inVol rest (acc ++ [tri]) (area + tri.area)
    else clipLoop inVol rest acc area

/-- The sum of the areas of the first k triangles of the list: the running
cumulative sum of the selection loop after k iterations. -/
def cumArea (tris : List TTriangle) (k : ℕ) : ℝ :=
  ((tris.take k).map TTriangle.area).sum

/-- A configuration token of the SOURCE line, pre-classified by which C++
stream extractions succeed on it: a token parseable as a double (config
numbers are finite decimals, modelled as rationals), or a plain word.
Extraction into a string succeeds on either. -/
inductive Token
  | num (q : ℚ)
  | word (s : String)

/-- The text of a token, as extraction into a string reads it. -/
def tokenText : Token → String
  | Token.num q => toString q
  | Token.word s => s

/-- Stream extraction into a double: succeeds only on a numeric token;
failure models the failbit of the istringstream. -/
def readDouble : List Token → Option (ℚ × List Token)
  | Token.num q :: rest => some (q, rest)
  | _ => none

/-- Stream extraction into a string: succeeds on any remaining token. -/
def readString : List Token → Option (String × List Token)
  | [] => none
  | tok :: rest => some (tokenText tok, rest)

/-- Stream extraction into a bool (no boolalpha): reads a numeric token and
accepts only the values 0 and 1; anything else sets the failbit. -/
def readBool : List Token → Option (Bool × List Token)
  | Token.num q :: rest =>
    if q = 0 then some (false, rest)
    else if q = 1 then some (true, rest)
    else none
  | _ => none

/-- Parse of the boxvolume mode's fields (source.cpp lines 228-229):
particle name, x_min x_max y_min y_max z_min z_max, ActiveTime,
PhaseSpaceWeighting. -/
def parseBoxvolume (toks : List Token) :
    Option (String × ℚ × ℚ × ℚ × ℚ × ℚ × ℚ × ℚ × Bool) :=
  (readString toks).bind fun pr0 =>
  (readDouble pr0.2).bind fun pr1 =>
  (readDouble pr1.2).bind fun pr2 =>
  (readDouble pr2.2).bind fun pr3 =>
  (readDouble pr3.2).bind fun pr4 =>
  (readDouble pr4.2).bind fun pr5 =>
  (readDouble pr5.2).bind fun pr6 =>
  (readDouble pr6.2).bind fun pr7 =>
  (readBool pr7.2).map fun pr8 =>
  (pr0.1, pr1.1, pr2.1, pr3.1, pr4.1, pr5.1, pr6.1, pr7.1, pr8.1)

/-- Parse of the cylvolume mode's fields (source.cpp lines 234-235):
particle name, r_min r_max phi_min phi_max z_min z_max, ActiveTime,
PhaseSpaceWeighting. -/
def parseCylvolume (toks : List Token) :
    Option (String × ℚ × ℚ × ℚ × ℚ × ℚ × ℚ × ℚ × Bool) :=
  (readString toks).bind fun pr0 =>
  (readDouble pr0.2).bind fun pr1 =>
  (readDouble pr1.2).bind fun pr2 =>
  (readDouble pr2.2).bind fun pr3 =>
  (readDouble pr3.2).bind fun pr4 =>
  (readDouble pr4.2).bind fun pr5 =>
  (readDouble pr5.2).bind fun pr6 =>
  (readDouble pr6.2).bind fun pr7 =>
  (readBool pr7.2).map fun pr8 =>
  (pr0.1, pr1.1, pr2.1, pr3.1, pr4.1, pr5.1, pr6.1, pr7.1, pr8.1)

/-- Parse of the STLvolume mode's fields (source.cpp lines 240-241):
particle name, source file, ActiveTime, PhaseSpaceWeighting. -/
def parseSTLvolume (toks : List Token) : Option (String × String × ℚ × Bool) :=
  (readString toks).bind fun pr0 =>
  (readString pr0.2).bind fun pr1 =>
  (readDouble pr1.2).bind fun pr2 =>
  (readBool pr2.2).map fun pr3 =>
  (pr0.1, pr1.1, pr2.1, pr3.1)

/-- Parse of the cylsurface mode's fields (source.cpp lines 246-247):
particle name, r_min r_max phi_min phi_max z_min z_max, ActiveTime,
E_normal. -/
def parseCylsurface (toks : List Token) :
    Option (String × ℚ × ℚ × ℚ × ℚ × ℚ × ℚ × ℚ × ℚ) :=
  (readString toks).bind fun pr0 =>
  (readDouble pr0.2).bind fun pr1 =>
  (readDouble pr1.2).bind fun pr2 =>
  (readDouble pr2.2).bind fun pr3 =>
  (readDouble pr3.2).bind fun pr4 =>
  (readDouble pr4.2).bind fun pr5 =>
  (readDouble pr5.2).bind fun pr6 =>
  (readDouble pr6.2).bind fun pr7 =>
  (readDouble pr7.2).map fun pr8 =>
  (pr0.1, pr1.1, pr2.1, pr3.1, pr4.1, pr5.1, pr6.1, pr7.1, pr8.1)

/-- Parse of the STLsurface mode's fields (source.cpp lines 252-254):
particle name, source file, ActiveTime, E_normal. -/
def parseSTLsurface (toks : List Token) : Option (String × String × ℚ × ℚ) :=
  (readString toks).bind fun pr0 =>
  (readString pr0.2).bind fun pr1 =>
  (readDouble pr1.2).bind fun pr2 =>
  (readDouble pr2.2).map fun pr3 =>
  (pr0.1, pr1.1, pr2.1, pr3.1)

/-- The concrete source the dispatcher instantiates, with the constructor
arguments it passes (angles already multiplied by the configured angular
conversion factor conv for the cylindrical modes). -/
inductive BuiltSource
  | cuboidVolume (ParticleName : String) (ActiveTime : ℝ)
      (PhaseSpaceWeighting : Bool) (xmin xmax ymin ymax zmin zmax : ℝ)
  | cylindricalVolume (ParticleName : String) (ActiveTime : ℝ)
      (PhaseSpaceWeighting : Bool) (rmin rmax phimin phimax zmin zmax : ℝ)
  | stlVolume (ParticleName : String) (ActiveTime : ℝ)
      (PhaseSpaceWeighting : Bool) (sourcefile : String)
  | cylindricalSurface (ParticleName : String) (ActiveTime : ℝ) (Enormal : ℝ)
      (rmin rmax phimin phimax zmin zmax : ℝ)
  | stlSurface (ParticleName : String) (ActiveTime : ℝ) (sourcefile : String)
      (Enormal : ℝ)

/-- Outcome of the TSource constructor: exactly one concrete source built,
or the fatal path of source.cpp lines 259-262, which reports the offending
source mode string and calls exit(-1). -/
inductive TSourceResult
  | built (sourcemode : String) (source : BuiltSource)
  | fatalExit (code : Int) (reportedMode : String)

/-- TSource::TSource (source.cpp lines 219-264): dispatch on the source mode
keyword, parse the mode's fields from the configuration tokens, and build
exactly one concrete source; when the mode is unrecognized or any extraction
failed (the if (sourceconf) guard of each branch), no source is built and
the constructor reports the mode string and terminates with exit(-1). The
C++ extracts the particle name once before the dispatch; reading it at the
head of each per-mode parse is equivalent, since a failed name extraction
poisons the stream and fails the branch guard, and the unrecognized-mode
path exits regardless of the name. -/
noncomputable def TSource_construct (conv : ℝ) (sourcemode : String)
    (toks : List Token) : TSourceResult :=
  if sourcemode = "boxvolume" then
    match parseBoxvolume toks with
    | some (name, x_min, x_max, y_min, y_max, z_min, z_max, active, psw) =>
      TSourceResult.built sourcemode
        (BuiltSource.cuboidVolume name (active : ℝ) psw (x_min : ℝ) (x_max : ℝ)
          (y_min : ℝ) (y_max : ℝ) (z_min : ℝ) (z_max : ℝ))
    | none => TSourceResult.fatalExit (-1) sourcemode
  else if sourcemode = "cylvolume" then
    match parseCylvolume toks with
    | some (name, r_min, r_max, phi_min, phi_max, z_min, z_max, active, psw) =>
      TSourceResult.built sourcemode
        (BuiltSource.cylindricalVolume name (active : ℝ) psw (r_min : ℝ) (r_max : ℝ)
          ((phi_min : ℝ) * conv) ((phi_max : ℝ) * conv) (z_min : ℝ) (z_max : ℝ))
    | none => TSourceResult.fatalExit (-1) sourcemode
  else if sourcemode = "STLvolume" then
    match parseSTLvolume toks with
    | some (name, sourcefile, active, psw) =>
      TSourceResult.built sourcemode
        (BuiltSource.stlVolume name (active : ℝ) psw sourcefile)
    | none => TSourceResult.fatalExit (-1) sourcemode
  else if sourcemode = "cylsurface" then
    match parseCylsurface toks with
    | some (name, r_min, r_max, phi_min, phi_max, z_min, z_max, active, en) =>
      TSourceResult.built sourcemode
        (BuiltSource.cylindricalSurface name (active : ℝ) (en : ℝ) (r_min : ℝ)
          (r_max : ℝ) ((phi_min : ℝ) * conv) ((phi_max : ℝ) * conv) (z_min : ℝ)
          (z_max : ℝ))
    | none => TSourceResult.fatalExit (-1) sourcemode
  else if sourcemode = "STLsurface" then
    match parseSTLsurface toks with
    | some (name, sourcefile, active, en) =>
      TSourceResult.built sourcemode
        (BuiltSource.stlSurface name (active : ℝ) sourcefile (en : ℝ))
    | none => TSourceResult.fatalExit (-1) sourcemode
  else TSourceResult.fatalExit (-1) sourcemode

/-- The generator state after the four fixed draws at the top of
TVolumeSource::CreateParticle (time, spectrum, angular distribution,
polarization; source.cpp lines 94-98), starting from the fresh state. -/
def prefixVolMCS (src : TVolumeSourceData) : MCS :=
  ⟨4, [DrawCall.uniformDist 0 src.fActiveTime, DrawCall.spectrum src.fParticleName,
       DrawCall.angularDist src.fParticleName, DrawCall.dicePolarisation src.fParticleName]⟩

/-- The generator state after a full surface CreateParticle call that
selected a triangle: the eight draws of source.cpp lines 49-81 in order. -/
noncomputable def prefixSurfMCS (src : TSurfaceSourceData) : MCS :=
  ⟨8, [DrawCall.uniformDist 0 src.fActiveTime, DrawCall.uniformDist 0 src.sourcearea,
       DrawCall.uniformDist 0 1, DrawCall.uniformDist 0 1,
       DrawCall.spectrum src.fParticleName, DrawCall.uniformDist 0 (2 * Real.pi),
       DrawCall.sinCosDist 0 ((0.5 : ℝ) * Real.pi),
       DrawCall.dicePolarisation src.fParticleName]⟩

/-- A generator oracle whose every uniform draw returns 1 and whose spectrum
returns 1: with a field read-back equal to the total energy, every
acceptance test 1 < sqrt(1) fails, so the phase-space search never
accepts. -/
def mcRejectAll : MC :=
  ⟨fun _ => 1, fun _ => 1, fun _ => 1, fun _ => 1, fun _ => (0, 0), fun _ => 0⟩

/-- A generator oracle whose every uniform draw returns 0 and whose spectrum
returns 1: the first acceptance test 0 < sqrt(1) succeeds with kinetic
energy 1 > 0, so the phase-space search accepts its first candidate. -/
def mcAcceptNow : MC :=
  ⟨fun _ => 0, fun _ => 0, fun _ => 0, fun _ => 1, fun _ => (0, 0), fun _ => 0⟩

/-- A field read-back oracle: the provisional particle's starting total
energy is 1 everywhere, so with H = 1 the local potential V is 0. -/
def hstartConst : Point → ℝ := fun _ => 1

/-- Cuboid shape parameters with unit bounds. -/
def cubeUnit : TCuboidVolumeSourceData := ⟨0, 1, 0, 1, 0, 1⟩

/-- A neutron volume source with phase-space weighting enabled. -/
def srcNeutronWeighted : TVolumeSourceData := ⟨"neutron", 1, true⟩

/-- A neutron volume source with phase-space weighting disabled. -/
def srcNeutronUnweighted : TVolumeSourceData := ⟨"neutron", 1, false⟩

/-- A concrete unit right triangle with area value 1 and z normal. -/
def triUnit : TTriangle := ⟨![![0, 0, 0], ![1, 0, 0], ![0, 1, 0]], 1, ![0, 0, 1]⟩

/-- A neutron surface source whose emitting set is the single triangle
triUnit, with cached area 1 and no normal-field term. -/
def surfNeutron : TSurfaceSourceData := ⟨"neutron", 1, [triUnit], 1, 0⟩

/-- A trivial rotation collaborator for concrete instances. -/
def rotId : Point → Point → Point := fun v _ => v

/-- With a recognized particle name, the factory constructs the particle by
pre-incrementing the counter (source.cpp lines 29-34). -/
theorem factory_valid (name : String) (hname : validName name) (counter : ℕ)
    (t : ℝ) (pos : Point) (E phi theta : ℝ) (pol : Int) :
    ∃ pt, TParticleSource_CreateParticle name counter t pos E phi theta pol =
      FactoryResult.made ⟨counter + 1, pt, t, pos, E, phi, theta, pol, PStatus.normal⟩ (counter + 1) := by
  rcases hname with h | h | h <;> subst h
  · exact ⟨PType.neutron, by rw [TParticleSource_CreateParticle, if_pos rfl]⟩
  · exact ⟨PType.proton, by
      rw [TParticleSource_CreateParticle, if_neg (by decide), if_pos rfl]⟩
  · exact ⟨PType.electron, by
      rw [TParticleSource_CreateParticle, if_neg (by decide), if_neg (by decide), if_pos rfl]⟩

/-- Past the loop bound the dice loop exits through the for-condition. -/
theorem diceLoop_out (hstartOf : Point → ℝ) (randomPoint : MC → MCS → Point × MCS)
    (name : String) (t H phi_v theta_v : ℝ) (pol : Int) (mc : MC) (pos : Point)
    (E : ℝ) (counter : ℕ) (s : MCS) (trials nroll : ℕ)
    (h : ¬ nroll ≤ MAX_DICE_ROLL) :
    diceLoop hstartOf randomPoint name t H phi_v theta_v pol mc pos E counter s trials nroll
      = (DiceLoopResult.exhausted pos E counter, s) := by
  rw [diceLoop, dif_neg h]

/-- An iteration whose candidate is accepted with positive kinetic energy
breaks out of the dice loop with that position and energy. -/
theorem diceLoop_accept (hstartOf : Point → ℝ) (randomPoint : MC → MCS → Point × MCS)
    (name : String) (t H phi_v theta_v : ℝ) (pol : Int) (mc : MC) (pos : Point)
    (E : ℝ) (counter : ℕ) (s : MCS) (trials nroll : ℕ) (p : TParticle) (c : ℕ)
    (hle : nroll ≤ MAX_DICE_ROLL)
    (hfac : TParticleSource_CreateParticle name counter t pos H phi_v theta_v pol
      = FactoryResult.made p c)
    (hacc : mc.u s.k < Real.sqrt ((H - (hstartOf pos - H)) / H))
    (hE : 0 < H - (hstartOf pos - H)) :
    diceLoop hstartOf randomPoint name t H phi_v theta_v pol mc pos E counter s trials nroll
      = (DiceLoopResult.found (trials + 1) pos (H - (hstartOf pos - H)) (c - 1),
         ⟨s.k + 1, s.log ++ [DrawCall.uniformDist 0 1]⟩) := by
  rw [diceLoop, dif_pos hle, hfac]
  simp only [MC.uniformDist]
  rw [if_pos hacc, if_pos hE]

/-- An iteration whose candidate is accepted with non-positive kinetic
energy redraws the position and continues (the C++ code falls through to
line 123 with E already overwritten). -/
theorem diceLoop_acceptNeg (hstartOf : Point → ℝ) (randomPoint : MC → MCS → Point × MCS)
    (name : String) (t H phi_v theta_v : ℝ) (pol : Int) (mc : MC) (pos : Point)
    (E : ℝ) (counter : ℕ) (s : MCS) (trials nroll : ℕ) (p : TParticle) (c : ℕ)
    (hle : nroll ≤ MAX_DICE_ROLL)
    (hfac : TParticleSource_CreateParticle name counter t pos H phi_v theta_v pol
      = FactoryResult.made p c)
    (hacc : mc.u s.k < Real.sqrt ((H - (hstartOf pos - H)) / H))
    (hE : ¬ 0 < H - (hstartOf pos - H)) :
    diceLoop hstartOf randomPoint name t H phi_v theta_v pol mc pos E counter s trials nroll
      = diceLoop hstartOf randomPoint name t H phi_v theta_v pol mc
          (randomPoint mc ⟨s.k + 1, s.log ++ [DrawCall.uniformDist 0 1]⟩).1
          (H - (hstartOf pos - H)) (c - 1)
          (randomPoint mc ⟨s.k + 1, s.log ++ [DrawCall.uniformDist 0 1]⟩).2
          (trials + 1) (nroll + 1) := by
  rw [diceLoop, dif_pos hle, hfac]
  simp only [MC.uniformDist]
  rw [if_pos hacc, if_neg hE]

/-- An iteration whose candidate is rejected at the loop cap returns the
provisional particle with the sentinel status (source.cpp lines 118-121). -/
theorem diceLoop_rejectLast (hstartOf : Point → ℝ) (randomPoint : MC → MCS → Point × MCS)
    (name : String) (t H phi_v theta_v : ℝ) (pol : Int) (mc : MC) (pos : Point)
    (E : ℝ) (counter : ℕ) (s : MCS) (trials nroll : ℕ) (p : TParticle) (c : ℕ)
    (hle : nroll ≤ MAX_DICE_ROLL)
    (hfac : TParticleSource_CreateParticle name counter t pos H phi_v theta_v pol
      = FactoryResult.made p c)
    (hacc : ¬ mc.u s.k < Real.sqrt ((H - (hstartOf pos - H)) / H))
    (hlast : MAX_DICE_ROLL ≤ nroll) :
    diceLoop hstartOf randomPoint name t H phi_v theta_v pol mc pos E counter s trials nroll
      = (DiceLoopResult.notFound (trials + 1) { p with status := PStatus.initialNotFound } (c - 1),
         ⟨s.k + 1, s.log ++ [DrawCall.uniformDist 0 1]⟩) := by
  rw [diceLoop, dif_pos hle, hfac]
  simp only [MC.uniformDist]
  rw [if_neg hacc, if_pos hlast]

/-- An iteration whose candidate is rejected before the loop cap redraws the
position and continues with E unchanged. -/
theorem diceLoop_rejectCont (hstartOf : Point → ℝ) (randomPoint : MC → MCS → Point × MCS)
    (name : String) (t H phi_v theta_v : ℝ) (pol : Int) (mc : MC) (pos : Point)
    (E : ℝ) (counter : ℕ) (s : MCS) (trials nroll : ℕ) (p : TParticle) (c : ℕ)
    (hle : nroll ≤ MAX_DICE_ROLL)
    (hfac : TParticleSource_CreateParticle name counter t pos H phi_v theta_v pol
      = FactoryResult.made p c)
    (hacc : ¬ mc.u s.k < Real.sqrt ((H - (hstartOf pos - H)) / H))
    (hlast : ¬ MAX_DICE_ROLL ≤ nroll) :
    diceLoop hstartOf randomPoint name t H phi_v theta_v pol mc pos E counter s trials nroll
      = diceLoop hstartOf randomPoint name t H phi_v theta_v pol mc
          (randomPoint mc ⟨s.k + 1, s.log ++ [DrawCall.uniformDist 0 1]⟩).1
          E (c - 1)
          (randomPoint mc ⟨s.k + 1, s.log ++ [DrawCall.uniformDist 0 1]⟩).2
          (trials + 1) (nroll + 1) := by
  rw [diceLoop, dif_pos hle, hfac]
  simp only [MC.uniformDist]
  rw [if_neg hacc, if_neg hlast]

/-- When every acceptance test fails, the dice loop runs every remaining
iteration and returns the last provisional particle with the sentinel
status; starting at iteration nroll it performs exactly
MAX_DICE_ROLL - nroll + 1 further provisional constructions, and the
ParticleCounter it reports is the one it started with (each provisional
increment is undone by the decrement at source.cpp line 110). -/
theorem diceLoop_allReject (hstartOf : Point → ℝ) (randomPoint : MC → MCS → Point × MCS)
    (name : String) (t H phi_v theta_v : ℝ) (pol : Int) (mc : MC)
    (hname : validName name)
    (hrej : ∀ k q, ¬ mc.u k < Real.sqrt ((H - (hstartOf q - H)) / H)) :
    ∀ fuel nroll, nroll + fuel = MAX_DICE_ROLL →
    ∀ pos E counter s trials, ∃ p s',
      diceLoop hstartOf randomPoint name t H phi_v theta_v pol mc pos E counter s trials nroll
        = (DiceLoopResult.notFound (trials + fuel + 1) p counter, s')
      ∧ p.num = counter + 1 ∧ p.status = PStatus.initialNotFound := by
  intro fuel
  induction fuel with
  | zero =>
    intro nroll hn pos E counter s trials
    obtain ⟨pt, hfac⟩ := factory_valid name hname counter t pos H phi_v theta_v pol
    refine ⟨⟨counter + 1, pt, t, pos, H, phi_v, theta_v, pol, PStatus.initialNotFound⟩,
      ⟨s.k + 1, s.log ++ [DrawCall.uniformDist 0 1]⟩, ?_, rfl, rfl⟩
    have hle : nroll ≤ MAX_DICE_ROLL := by omega
    have hlast : MAX_DICE_ROLL ≤ nroll := by omega
    rw [diceLoop_rejectLast hstartOf randomPoint name t H phi_v theta_v pol mc pos E
      counter s trials nroll _ _ hle hfac (hrej s.k pos) hlast]
    simp
  | succ f ih =>
    intro nroll hn pos E counter s trials
    obtain ⟨pt, hfac⟩ := factory_valid name hname counter t pos H phi_v theta_v pol
    have hle : nroll ≤ MAX_DICE_ROLL := by omega
    have hlast : ¬ MAX_DICE_ROLL ≤ nroll := by omega
    rw [diceLoop_rejectCont hstartOf randomPoint name t H phi_v theta_v pol mc pos E
      counter s trials nroll _ _ hle hfac (hrej s.k pos) hlast]
    obtain ⟨p, s', heq, hnum, hstat⟩ := ih (nroll + 1) (by omega)
      (randomPoint mc ⟨s.k + 1, s.log ++ [DrawCall.uniformDist 0 1]⟩).1 E counter
      (randomPoint mc ⟨s.k + 1, s.log ++ [DrawCall.uniformDist 0 1]⟩).2 (trials + 1)
    refine ⟨p, s', ?_, hnum, hstat⟩
    have e : trials + 1 + f + 1 = trials + (f + 1) + 1 := by omega
    rw [e] at heq
    simpa using heq

/-- Invariant of the dice loop: with a recognized particle name the loop
never hits the factory's fatal path; a found or exhausted outcome reports
the ParticleCounter it started with (all provisional increments undone); a
notFound outcome reports the starting counter while the returned sentinel
particle keeps the id counter+1; every outcome's trial count exceeds the
count the loop started with. -/
theorem diceLoop_inv (hstartOf : Point → ℝ) (randomPoint : MC → MCS → Point × MCS)
    (name : String) (t H phi_v theta_v : ℝ) (pol : Int) (mc : MC)
    (hname : validName name) :
    ∀ fuel nroll, MAX_DICE_ROLL + 1 ≤ nroll + fuel →
    ∀ pos E counter s trials res s',
      diceLoop hstartOf randomPoint name t H phi_v theta_v pol mc pos E counter s trials nroll
        = (res, s') →
      (∀ tr pos2 E2 c2, res = DiceLoopResult.found tr pos2 E2 c2 → c2 = counter ∧ trials < tr) ∧
      (∀ tr p c2, res = DiceLoopResult.notFound tr p c2 →
        c2 = counter ∧ p.num = counter + 1 ∧ p.status = PStatus.initialNotFound ∧ trials < tr) ∧
      (∀ pos2 E2 c2, res = DiceLoopResult.exhausted pos2 E2 c2 → c2 = counter) ∧
      (∀ code nm, res ≠ DiceLoopResult.fatalExit code nm) := by
  intro fuel
  induction fuel with
  | zero =>
    intro nroll hn pos E counter s trials res s' heq
    rw [diceLoop_out hstartOf randomPoint name t H phi_v theta_v pol mc pos E counter
      s trials nroll (by omega)] at heq
    injection heq with h1 h2
    subst h1
    refine ⟨?_, ?_, ?_, ?_⟩
    · intro tr pos2 E2 c2 h; exact absurd h (by intro hh; exact DiceLoopResult.noConfusion hh)
    · intro tr p2 c2 h; exact absurd h (by intro hh; exact DiceLoopResult.noConfusion hh)
    · intro pos2 E2 c2 h
      cases h
      rfl
    · intro code nm h; exact DiceLoopResult.noConfusion h
  | succ f ih =>
    intro nroll hn pos E counter s trials res s' heq
    by_cases hle : nroll ≤ MAX_DICE_ROLL
    · obtain ⟨pt, hfac⟩ := factory_valid name hname counter t pos H phi_v theta_v pol
      by_cases hacc : mc.u s.k < Real.sqrt ((H - (hstartOf pos - H)) / H)
      · by_cases hE : 0 < H - (hstartOf pos - H)
        · rw [diceLoop_accept hstartOf randomPoint name t H phi_v theta_v pol mc pos E
            counter s trials nroll _ _ hle hfac hacc hE] at heq
          injection heq with h1 h2
          subst h1
          refine ⟨?_, ?_, ?_, ?_⟩
          · intro tr pos2 E2 c2 h
            injection h.symm with e1 e2 e3 e4
            exact ⟨by omega, by omega⟩
          · intro tr p2 c2 h; exact absurd h (by intro hh; exact DiceLoopResult.noConfusion hh)
          · intro pos2 E2 c2 h; exact absurd h (by intro hh; exact DiceLoopResult.noConfusion hh)
          · intro code nm h; exact DiceLoopResult.noConfusion h
        · rw [diceLoop_acceptNeg hstartOf randomPoint name t H phi_v theta_v pol mc pos E
            counter s trials nroll _ _ hle hfac hacc hE] at heq
          obtain ⟨i1, i2, i3, i4⟩ := ih (nroll + 1) (by omega) _ _ _ _ _ res s' heq
          refine ⟨?_, ?_, ?_, i4⟩
          · intro tr pos2 E2 c2 h
            obtain ⟨hc, htr⟩ := i1 tr pos2 E2 c2 h
            exact ⟨by omega, by omega⟩
          · intro tr p2 c2 h
            obtain ⟨hc, hnum, hstat, htr⟩ := i2 tr p2 c2 h
            exact ⟨by omega, by omega, hstat, by omega⟩
          · intro pos2 E2 c2 h
            have := i3 pos2 E2 c2 h
            omega
      · by_cases hlast : MAX_DICE_ROLL ≤ nroll
        · rw [diceLoop_rejectLast hstartOf randomPoint name t H phi_v theta_v pol mc pos E
            counter s trials nroll _ _ hle hfac hacc hlast] at heq
          injection heq with h1 h2
          subst h1
          refine ⟨?_, ?_, ?_, ?_⟩
          · intro tr pos2 E2 c2 h; exact absurd h (by intro hh; exact DiceLoopResult.noConfusion hh)
          · intro tr p2 c2 h
            injection h.symm with e1 e2 e3
            subst e2
            exact ⟨by omega, rfl, rfl, by omega⟩
          · intro pos2 E2 c2 h; exact absurd h (by intro hh; exact DiceLoopResult.noConfusion hh)
          · intro code nm h; exact DiceLoopResult.noConfusion h
        · rw [diceLoop_rejectCont hstartOf randomPoint name t H phi_v theta_v pol mc pos E
            counter s trials nroll _ _ hle hfac hacc hlast] at heq
          obtain ⟨i1, i2, i3, i4⟩ := ih (nroll + 1) (by omega) _ _ _ _ _ res s' heq
          refine ⟨?_, ?_, ?_, i4⟩
          · intro tr pos2 E2 c2 h
            obtain ⟨hc, htr⟩ := i1 tr pos2 E2 c2 h
            exact ⟨by omega, by omega⟩
          · intro tr p2 c2 h
            obtain ⟨hc, hnum, hstat, htr⟩ := i2 tr p2 c2 h
            exact ⟨by omega, by omega, hstat, by omega⟩
          · intro pos2 E2 c2 h
            have := i3 pos2 E2 c2 h
            omega
    · rw [diceLoop_out hstartOf randomPoint name t H phi_v theta_v pol mc pos E counter
        s trials nroll hle] at heq
      injection heq with h1 h2
      subst h1
      refine ⟨?_, ?_, ?_, ?_⟩
      · intro tr pos2 E2 c2 h; exact absurd h (by intro hh; exact DiceLoopResult.noConfusion hh)
      · intro tr p2 c2 h; exact absurd h (by intro hh; exact DiceLoopResult.noConfusion hh)
      · intro pos2 E2 c2 h
        cases h
        rfl
      · intro code nm h; exact DiceLoopResult.noConfusion h

/-- Definitional unfolding of TVolumeSource::CreateParticle at a fresh
generator state: the four fixed draws (time, spectrum, angles, polarization),
the first candidate position, then either the phase-space dice loop or the
direct factory call (source.cpp lines 93-128). -/
theorem volumeCreate_unfold (hstartOf : Point → ℝ)
    (randomPoint : MC → MCS → Point × MCS) (src : TVolumeSourceData) (mc : MC)
    (counter : ℕ) :
    TVolumeSource_CreateParticle hstartOf randomPoint src mc counter ⟨0, []⟩
      = (if src.fPhaseSpaceWeighting then
          (match diceLoop hstartOf randomPoint src.fParticleName (mc.u 0) (mc.spec 1)
              (mc.ang 2).1 (mc.ang 2).2 (mc.pol 3) mc
              (randomPoint mc (prefixVolMCS src)).1 (mc.spec 1) counter
              (randomPoint mc (prefixVolMCS src)).2 0 0 with
           | (DiceLoopResult.found _ pos2 E2 c2, s2) =>
             (match TParticleSource_CreateParticle src.fParticleName c2 (mc.u 0) pos2 E2
                 (mc.ang 2).1 (mc.ang 2).2 (mc.pol 3) with
              | FactoryResult.made pp cc => (CreateResult.particle pp cc, s2)
              | FactoryResult.fatalExit code nm => (CreateResult.fatalExit code nm, s2))
           | (DiceLoopResult.notFound _ pp c2, s2) => (CreateResult.particle pp c2, s2)
           | (DiceLoopResult.exhausted pos2 E2 c2, s2) =>
             (match TParticleSource_CreateParticle src.fParticleName c2 (mc.u 0) pos2 E2
                 (mc.ang 2).1 (mc.ang 2).2 (mc.pol 3) with
              | FactoryResult.made pp cc => (CreateResult.particle pp cc, s2)
              | FactoryResult.fatalExit code nm => (CreateResult.fatalExit code nm, s2))
           | (DiceLoopResult.fatalExit code nm, s2) => (CreateResult.fatalExit code nm, s2))
         else
          (match TParticleSource_CreateParticle src.fParticleName counter (mc.u 0)
              (randomPoint mc (prefixVolMCS src)).1 (mc.spec 1) (mc.ang 2).1 (mc.ang 2).2
              (mc.pol 3) with
           | FactoryResult.made pp cc =>
             (CreateResult.particle pp cc, (randomPoint mc (prefixVolMCS src)).2)
           | FactoryResult.fatalExit code nm =>
             (CreateResult.fatalExit code nm, (randomPoint mc (prefixVolMCS src)).2))) := rfl

/-- With phase-space weighting on, the volume source call returns whatever
particle the dice loop's sentinel path produced, together with the loop's
counter (source.cpp lines 119-121). -/
theorem volumeCreate_psw_notFound (hstartOf : Point → ℝ)
    (randomPoint : MC → MCS → Point × MCS) (src : TVolumeSourceData) (mc : MC)
    (counter : ℕ) (tr : ℕ) (pp : TParticle) (c2 : ℕ) (s2 : MCS)
    (hpsw : src.fPhaseSpaceWeighting = true)
    (hdl : diceLoop hstartOf randomPoint src.fParticleName (mc.u 0) (mc.spec 1)
        (mc.ang 2).1 (mc.ang 2).2 (mc.pol 3) mc
        (randomPoint mc (prefixVolMCS src)).1 (mc.spec 1) counter
        (randomPoint mc (prefixVolMCS src)).2 0 0
      = (DiceLoopResult.notFound tr pp c2, s2)) :
    TVolumeSource_CreateParticle hstartOf randomPoint src mc counter ⟨0, []⟩
      = (CreateResult.particle pp c2, s2) := by
  rw [volumeCreate_unfold, if_pos hpsw, hdl]

/-- With phase-space weighting on, when the dice loop breaks with an accepted
position and energy, the volume source builds the final particle there
(source.cpp line 127). -/
theorem volumeCreate_psw_found (hstartOf : Point → ℝ)
    (randomPoint : MC → MCS → Point × MCS) (src : TVolumeSourceData) (mc : MC)
    (counter : ℕ) (tr : ℕ) (pos2 : Point) (E2 : ℝ) (c2 : ℕ) (s2 : MCS)
    (pp : TParticle) (cc : ℕ)
    (hpsw : src.fPhaseSpaceWeighting = true)
    (hdl : diceLoop hstartOf randomPoint src.fParticleName (mc.u 0) (mc.spec 1)
        (mc.ang 2).1 (mc.ang 2).2 (mc.pol 3) mc
        (randomPoint mc (prefixVolMCS src)).1 (mc.spec 1) counter
        (randomPoint mc (prefixVolMCS src)).2 0 0
      = (DiceLoopResult.found tr pos2 E2 c2, s2))
    (hfac : TParticleSource_CreateParticle src.fParticleName c2 (mc.u 0) pos2 E2
        (mc.ang 2).1 (mc.ang 2).2 (mc.pol 3) = FactoryResult.made pp cc) :
    TVolumeSource_CreateParticle hstartOf randomPoint src mc counter ⟨0, []⟩
      = (CreateResult.particle pp cc, s2) := by
  rw [volumeCreate_unfold, if_pos hpsw, hdl]
  simp only [hfac]

/-- With phase-space weighting off, the volume source call is a single draw
sequence followed by one factory call at the drawn position (source.cpp
lines 93-100 and 127). -/
theorem volumeCreate_nopsw (hstartOf : Point → ℝ)
    (randomPoint : MC → MCS → Point × MCS) (src : TVolumeSourceData) (mc : MC)
    (counter : ℕ)
    (hpsw : src.fPhaseSpaceWeighting = false) :
    TVolumeSource_CreateParticle hstartOf randomPoint src mc counter ⟨0, []⟩
      = (match TParticleSource_CreateParticle src.fParticleName counter (mc.u 0)
            (randomPoint mc (prefixVolMCS src)).1 (mc.spec 1) (mc.ang 2).1 (mc.ang 2).2
            (mc.pol 3) with
         | FactoryResult.made pp cc =>
            (CreateResult.particle pp cc, (randomPoint mc (prefixVolMCS src)).2)
         | FactoryResult.fatalExit code nm =>
            (CreateResult.fatalExit code nm, (randomPoint mc (prefixVolMCS src)).2)) := by
  rw [volumeCreate_unfold, if_neg (by simp [hpsw])]

/-- Definitional unfolding of TSurfaceSource::CreateParticle at a fresh
generator state: time and area draws, triangle selection (end-iterator
dereference when the selection loop falls off the list), barycentric point,
spectrum, angles, the optional normal-field recomputation, rotation into the
global frame and polarization (source.cpp lines 48-84). -/
theorem surfaceCreate_unfold (tol : ℝ) (rotateVector : Point → Point → Point)
    (src : TSurfaceSourceData) (mc : MC) (counter : ℕ) :
    TSurfaceSource_CreateParticle tol rotateVector src mc counter ⟨0, []⟩
      = (match selectSourceTri (mc.u 1) 0 src.sourcetris 0 with
         | none => (CreateResult.endDeref,
             ⟨2, [DrawCall.uniformDist 0 src.fActiveTime,
                  DrawCall.uniformDist 0 src.sourcearea]⟩)
         | some itri =>
           (match TParticleSource_CreateParticle src.fParticleName counter (mc.u 0)
               (trianglePoint itri.2 tol (foldBarycentric (mc.u 2) (mc.u 3)).1
                 (foldBarycentric (mc.u 2) (mc.u 3)).2)
               (enormalBoost src.Enormal (mc.spec 4) (mc.sc 6)).2
               (atan2 (surfaceEmittedDir rotateVector itri.2.normal (mc.u 5)
                   (enormalBoost src.Enormal (mc.spec 4) (mc.sc 6)).1 1)
                 (surfaceEmittedDir rotateVector itri.2.normal (mc.u 5)
                   (enormalBoost src.Enormal (mc.spec 4) (mc.sc 6)).1 0))
               (Real.arccos (surfaceEmittedDir rotateVector itri.2.normal (mc.u 5)
                   (enormalBoost src.Enormal (mc.spec 4) (mc.sc 6)).1 2))
               (mc.pol 7) with
            | FactoryResult.made pp cc => (CreateResult.particle pp cc, prefixSurfMCS src)
            | FactoryResult.fatalExit code nm =>
              (CreateResult.fatalExit code nm, prefixSurfMCS src))) := rfl

/-- When the selection loop finds a triangle, the surface call consumes
exactly the eight draws in source order; the recorded trace is independent
of the factory's outcome. -/
theorem surfaceCreate_log (tol : ℝ) (rotateVector : Point → Point → Point)
    (src : TSurfaceSourceData) (mc : MC) (counter : ℕ) (itri : ℕ × TTriangle)
    (hsel : selectSourceTri (mc.u 1) 0 src.sourcetris 0 = some itri) :
    ((TSurfaceSource_CreateParticle tol rotateVector src mc counter ⟨0, []⟩).2).log
      = [DrawCall.uniformDist 0 src.fActiveTime, DrawCall.uniformDist 0 src.sourcearea,
         DrawCall.uniformDist 0 1, DrawCall.uniformDist 0 1,
         DrawCall.spectrum src.fParticleName, DrawCall.uniformDist 0 (2 * Real.pi),
         DrawCall.sinCosDist 0 ((0.5 : ℝ) * Real.pi),
         DrawCall.dicePolarisation src.fParticleName] := by
  rw [surfaceCreate_unfold, hsel]
  rcases hf : TParticleSource_CreateParticle src.fParticleName counter (mc.u 0)
      (trianglePoint itri.2 tol (foldBarycentric (mc.u 2) (mc.u 3)).1
        (foldBarycentric (mc.u 2) (mc.u 3)).2)
      (enormalBoost src.Enormal (mc.spec 4) (mc.sc 6)).2
      (atan2 (surfaceEmittedDir rotateVector itri.2.normal (mc.u 5)
          (enormalBoost src.Enormal (mc.spec 4) (mc.sc 6)).1 1)
        (surfaceEmittedDir rotateVector itri.2.normal (mc.u 5)
          (enormalBoost src.Enormal (mc.spec 4) (mc.sc 6)).1 0))
      (Real.arccos (surfaceEmittedDir rotateVector itri.2.normal (mc.u 5)
          (enormalBoost src.Enormal (mc.spec 4) (mc.sc 6)).1 2))
      (mc.pol 7) with ⟨pp, cc⟩ | ⟨code, nm⟩ <;>
    simp [hf, prefixSurfMCS]

/-- The cumulative area over zero triangles is zero. -/
theorem cumArea_zero (tris : List TTriangle) : cumArea tris 0 = 0 := rfl

/-- One step of the cumulative area sum. -/
theorem cumArea_cons (tri : TTriangle) (rest : List TTriangle) (k : ℕ) :
    cumArea (tri :: rest) (k + 1) = tri.area + cumArea rest k := by
  simp [cumArea]

/-- The cumulative area over the whole list is the total area sum. -/
theorem cumArea_length (tris : List TTriangle) :
    cumArea tris tris.length = (tris.map TTriangle.area).sum := by
  simp [cumArea]

/-- Soundness of the selection loop: a selected entry is the triangle at the
selected list position, its cumulative sum reaches or exceeds the drawn
value, and it is the first such position (all earlier cumulative sums fall
short). -/
theorem selectSourceTri_some (u : ℝ) :
    ∀ (tris : List TTriangle) (S : ℝ) (idx i : ℕ) (tri : TTriangle),
      selectSourceTri u S tris idx = some (i, tri) →
      ∃ j, i = idx + j ∧ tris.get? j = some tri ∧ u ≤ S + cumArea tris (j + 1) ∧
        ∀ j2 < j, S + cumArea tris (j2 + 1) < u := by
  intro tris
  induction tris with
  | nil =>
    intro S idx i tri h
    exact absurd h (by rw [selectSourceTri]; exact Option.noConfusion)
  | cons hd rest ih =>
    intro S idx i tri h
    rw [selectSourceTri] at h
    by_cases hle : u ≤ S + hd.area
    · rw [if_pos hle] at h
      injection h with h1
      injection h1 with e1 e2
      refine ⟨0, by omega, by simp [e2], ?_, ?_⟩
      · rw [cumArea_cons, cumArea_zero]
        linarith
      · intro j2 hj2
        exact absurd hj2 (Nat.not_lt_zero j2)
    · rw [if_neg hle] at h
      obtain ⟨j, hj1, hj2, hj3, hj4⟩ := ih (S + hd.area) (idx + 1) i tri h
      refine ⟨j + 1, by omega, by simpa using hj2, ?_, ?_⟩
      · rw [cumArea_cons]
        linarith
      · intro j2 hj2lt
        cases j2 with
        | zero =>
          rw [cumArea_cons, cumArea_zero]
          push_neg at hle
          linarith
        | succ j3 =>
          have := hj4 j3 (by omega)
          rw [cumArea_cons]
          linarith

/-- Completeness of the selection loop: when the drawn value does not exceed
the remaining total area, the loop selects some entry. -/
theorem selectSourceTri_total (u : ℝ) :
    ∀ (tris : List TTriangle) (S : ℝ) (idx : ℕ), tris ≠ [] →
      u ≤ S + cumArea tris tris.length →
      ∃ pr, selectSourceTri u S tris idx = some pr := by
  intro tris
  induction tris with
  | nil => intro S idx h; exact absurd rfl h
  | cons hd rest ih =>
    intro S idx hne hsum
    rw [selectSourceTri]
    by_cases hle : u ≤ S + hd.area
    · rw [if_pos hle]; exact ⟨(idx, hd), rfl⟩
    · rw [if_neg hle]
      cases rest with
      | nil =>
        exfalso
        rw [List.length_singleton, cumArea_cons, cumArea_zero] at hsum
        push_neg at hle
        linarith
      | cons hd2 rest2 =>
        refine ih (S + hd.area) (idx + 1) (List.cons_ne_nil hd2 rest2) ?_
        rw [List.length_cons, cumArea_cons] at hsum
        linarith

/-- On an empty triangle list the selection loop falls off the end: the C++
iterator is the end iterator. -/
theorem selectSourceTri_nil (u S : ℝ) (idx : ℕ) : selectSourceTri u S [] idx = none := by
  rw [selectSourceTri]

/-- When the drawn value exceeds the total area of the (nonnegative-area)
triangles, the selection loop falls off the end of the list. -/
theorem selectSourceTri_gt (u : ℝ) :
    ∀ (tris : List TTriangle) (S : ℝ) (idx : ℕ), (∀ tri ∈ tris, 0 ≤ tri.area) →
      S + cumArea tris tris.length < u →
      selectSourceTri u S tris idx = none := by
  intro tris
  induction tris with
  | nil => intro S idx _ _; rw [selectSourceTri]
  | cons hd rest ih =>
    intro S idx hpos hsum
    rw [List.length_cons, cumArea_cons, cumArea_length] at hsum
    have hrest : 0 ≤ (rest.map TTriangle.area).sum := by
      refine List.sum_nonneg ?_
      intro x hx
      obtain ⟨tri, htri, rfl⟩ := List.mem_map.mp hx
      exact hpos tri (List.mem_cons_of_mem hd htri)
    rw [selectSourceTri, if_neg (by push_neg; linarith)]
    refine ih (S + hd.area) (idx + 1) (fun tri htri => hpos tri (List.mem_cons_of_mem hd htri)) ?_
    rw [cumArea_length]
    linarith

/-- The construction scan of the clipped surface sources equals a filter by
the all-three-vertices membership test, and the accumulated area is the sum
of the retained areas. -/
theorem clipLoop_eq (inVol : Point → Bool) :
    ∀ (tris acc : List TTriangle) (area0 : ℝ),
      clipLoop inVol tris acc area0
        = (acc ++ tris.filter (fun tri => inVol (tri.tri 0) && inVol (tri.tri 1) && inVol (tri.tri 2)),
           area0 + ((tris.filter (fun tri => inVol (tri.tri 0) && inVol (tri.tri 1) && inVol (tri.tri 2))).map TTriangle.area).sum) := by
  intro tris
  induction tris with
  | nil => intro acc area0; simp [clipLoop]
  | cons hd rest ih =>
    intro acc area0
    rw [clipLoop]
    by_cases hc : (inVol (hd.tri 0) && inVol (hd.tri 1) && inVol (hd.tri 2)) = true
    · rw [if_pos hc, ih]
      simp [hc, List.filter_cons, List.append_assoc, Prod.ext_iff]
      ring
    · rw [if_neg hc, ih]
      simp [hc, List.filter_cons]

/-- C4 counterexample: with the nonzero (negative) normal-field term
Enormal = -1, sampled energy 4 and polar angle 0, the code performs no
recomputation at all (the guard at source.cpp line 69 is Enormal > 0, not
Enormal nonzero): the energy stays 4, whereas the claimed recomputed energy
Ekin + E_normal would be 3. -/
theorem C4_enormal_counterexample :
    enormalBoost (-1) 4 0 = ((0 : ℝ), (4 : ℝ)) ∧ (4 : ℝ) + (-1) ≠ (4 : ℝ) := by
  constructor
  · rw [enormalBoost, if_neg (by norm_num)]
  · norm_num

/-- C4 amended: for every surface-source call with a positive configured
normal-field term E_normal and nonnegative sampled energy, the direction and
energy are recomputed as claimed: the new polar angle is
atan2(v_tangential, v_normal) with v_normal = sqrt(Ekin cos^2 theta +
E_normal) and v_tangential = sqrt(Ekin) sin theta, and the new kinetic
energy v_normal^2 + v_tangential^2 equals Ekin + E_normal. -/
theorem C4_enormal_boost (Enormal Ekin theta_v : ℝ) (hE : 0 < Enormal)
    (hK : 0 ≤ Ekin) :
    enormalBoost Enormal Ekin theta_v
      = (atan2 (Real.sqrt Ekin * Real.sin theta_v)
          (Real.sqrt (Ekin * Real.cos theta_v * Real.cos theta_v + Enormal)),
         Ekin + Enormal) := by
  rw [enormalBoost, if_pos hE]
  have h1 : Real.sqrt (Ekin * Real.cos theta_v * Real.cos theta_v + Enormal) *
      Real.sqrt (Ekin * Real.cos theta_v * Real.cos theta_v + Enormal)
      = Ekin * Real.cos theta_v * Real.cos theta_v + Enormal :=
    Real.mul_self_sqrt
      (by nlinarith [mul_nonneg hK (mul_self_nonneg (Real.cos theta_v)), hE])
  have h2 : Real.sqrt Ekin * Real.sqrt Ekin = Ekin := Real.mul_self_sqrt hK
  have h3 := Real.sin_sq_add_cos_sq theta_v
  simp only [Prod.mk.injEq]
  refine ⟨trivial, ?_⟩
  nlinarith [h1, h2, h3]

/-- Witness for C4 at Enormal = 1, Ekin = 0, theta = 0. -/
theorem C4_enormal_boost_witness :
    enormalBoost 1 0 0 = (atan2 (Real.sqrt 0 * Real.sin 0)
        (Real.sqrt (0 * Real.cos 0 * Real.cos 0 + 1)), 0 + 1) :=
  C4_enormal_boost 1 0 0 (by norm_num) (by norm_num)

/-- C5: for a nonempty emitting list and a drawn value not exceeding the
total area, the selection loop selects an entry, and any selected entry is
the triangle at the first list position whose running cumulative area sum
reaches or exceeds the drawn value (left-closed inversion tie-break). -/
theorem C5_triangle_selection (tris : List TTriangle) (u : ℝ) :
    (tris ≠ [] → u ≤ cumArea tris tris.length →
      ∃ pr, selectSourceTri u 0 tris 0 = some pr) ∧
    (∀ i tri, selectSourceTri u 0 tris 0 = some (i, tri) →
      tris.get? i = some tri ∧ u ≤ cumArea tris (i + 1) ∧
      ∀ j < i, cumArea tris (j + 1) < u) := by
  constructor
  · intro hne hsum
    exact selectSourceTri_total u tris 0 0 hne (by rw [zero_add]; exact hsum)
  · intro i tri h
    obtain ⟨j, hj1, hj2, hj3, hj4⟩ := selectSourceTri_some u tris 0 0 i tri h
    have hji : j = i := by omega
    subst hji
    rw [zero_add] at hj3
    refine ⟨hj2, hj3, ?_⟩
    intro j2 hj2lt
    have := hj4 j2 hj2lt
    linarith

/-- Witness for C5: a single triangle of area 1 is selected by the draw 1. -/
theorem C5_triangle_selection_witness :
    ∃ pr, selectSourceTri 1 0 [triUnit] 0 = some pr :=
  (C5_triangle_selection [triUnit] 1).1 (by simp) (by norm_num [cumArea, triUnit])

/-- C6: for (a, b) drawn in the unit square, the folded pair has nonnegative
components summing to at most 1, and the emitted position is the barycentric
combination of the triangle's vertices with those coefficients, offset along
the triangle's normal by the fixed tolerance. -/
theorem C6_barycentric_fold (a b : ℝ) (tri : TTriangle) (tol : ℝ)
    (ha0 : 0 ≤ a) (ha1 : a ≤ 1) (hb0 : 0 ≤ b) (hb1 : b ≤ 1) :
    0 ≤ (foldBarycentric a b).1 ∧ 0 ≤ (foldBarycentric a b).2 ∧
    (foldBarycentric a b).1 + (foldBarycentric a b).2 ≤ 1 ∧
    trianglePoint tri tol (foldBarycentric a b).1 (foldBarycentric a b).2
      = (1 - (foldBarycentric a b).1 - (foldBarycentric a b).2) • tri.tri 0
        + (foldBarycentric a b).1 • tri.tri 1 + (foldBarycentric a b).2 • tri.tri 2
        + tol • tri.normal := by
  have key : ∀ x y : ℝ, trianglePoint tri tol x y
      = (1 - x - y) • tri.tri 0 + x • tri.tri 1 + y • tri.tri 2 + tol • tri.normal := by
    intro x y
    funext i
    simp only [trianglePoint, Pi.add_apply, Pi.sub_apply, Pi.smul_apply, smul_eq_mul]
    ring
  rw [foldBarycentric]
  by_cases hab : 1 < a + b
  · rw [if_pos hab]
    dsimp only
    exact ⟨by linarith, by linarith, by linarith, key _ _⟩
  · rw [if_neg hab]
    dsimp only
    push_neg at hab
    exact ⟨ha0, hb0, hab, key _ _⟩

/-- Witness for C6 at (a, b) = (0, 0) on the unit triangle. -/
theorem C6_barycentric_fold_witness :
    0 ≤ (foldBarycentric 0 0).1 ∧ 0 ≤ (foldBarycentric 0 0).2 ∧
    (foldBarycentric 0 0).1 + (foldBarycentric 0 0).2 ≤ 1 ∧
    trianglePoint triUnit 1 (foldBarycentric 0 0).1 (foldBarycentric 0 0).2
      = (1 - (foldBarycentric 0 0).1 - (foldBarycentric 0 0).2) • triUnit.tri 0
        + (foldBarycentric 0 0).1 • triUnit.tri 1 + (foldBarycentric 0 0).2 • triUnit.tri 2
        + (1 : ℝ) • triUnit.normal :=
  C6_barycentric_fold 0 0 triUnit 1 le_rfl zero_le_one le_rfl zero_le_one

/-- C8: at construction of a clipped surface source, a geometry triangle is
retained exactly when all three of its vertices satisfy the membership test
(cylindrical-sector InSourceVolume, respectively the auxiliary mesh's
InSolid), and the accumulated total source area equals the sum of the areas
of exactly the retained triangles. In the embedding both values are produced
once by clipLoop and never mutated afterwards, matching the C++ fields that
are only written in the constructors. -/
theorem C8_clip_construction (inVol : Point → Bool) (tris : List TTriangle) :
    (clipLoop inVol tris [] 0).1
      = tris.filter (fun tri => inVol (tri.tri 0) && inVol (tri.tri 1) && inVol (tri.tri 2)) ∧
    (clipLoop inVol tris [] 0).2
      = (((clipLoop inVol tris [] 0).1).map TTriangle.area).sum ∧
    ∀ tri, tri ∈ (clipLoop inVol tris [] 0).1 ↔
      tri ∈ tris ∧ (inVol (tri.tri 0) && inVol (tri.tri 1) && inVol (tri.tri 2)) = true := by
  rw [clipLoop_eq]
  refine ⟨by simp, by simp, ?_⟩
  intro tri
  simp [List.mem_filter]

/-- C9: an unrecognized source mode, or a failed field parse in any of the
five recognized modes, builds no source and takes the fatal exit(-1) path
reporting the mode string; an unrecognized particle-type tag in the base
factory constructs no particle and takes the fatal exit(-1) path reporting
the particle name. -/
theorem C9_fatal_config :
    (∀ (conv : ℝ) (mode : String) (toks : List Token),
       mode ∉ ["boxvolume", "cylvolume", "STLvolume", "cylsurface", "STLsurface"] →
       TSource_construct conv mode toks = TSourceResult.fatalExit (-1) mode) ∧
    (∀ (conv : ℝ) (toks : List Token), parseBoxvolume toks = none →
       TSource_construct conv "boxvolume" toks = TSourceResult.fatalExit (-1) "boxvolume") ∧
    (∀ (conv : ℝ) (toks : List Token), parseCylvolume toks = none →
       TSource_construct conv "cylvolume" toks = TSourceResult.fatalExit (-1) "cylvolume") ∧
    (∀ (conv : ℝ) (toks : List Token), parseSTLvolume toks = none →
       TSource_construct conv "STLvolume" toks = TSourceResult.fatalExit (-1) "STLvolume") ∧
    (∀ (conv : ℝ) (toks : List Token), parseCylsurface toks = none →
       TSource_construct conv "cylsurface" toks = TSourceResult.fatalExit (-1) "cylsurface") ∧
    (∀ (conv : ℝ) (toks : List Token), parseSTLsurface toks = none →
       TSource_construct conv "STLsurface" toks = TSourceResult.fatalExit (-1) "STLsurface") ∧
    (∀ (name : String) (counter : ℕ) (t : ℝ) (pos : Point) (E phi theta : ℝ) (pol : Int),
       name ≠ NAME_NEUTRON → name ≠ NAME_PROTON → name ≠ NAME_ELECTRON →
       TParticleSource_CreateParticle name counter t pos E phi theta pol
         = FactoryResult.fatalExit (-1) name) := by
  refine ⟨?_, ?_, ?_, ?_, ?_, ?_, ?_⟩
  · intro conv mode toks hmode
    simp only [List.mem_cons, List.not_mem_nil, or_false, not_or] at hmode
    obtain ⟨h1, h2, h3, h4, h5⟩ := hmode
    rw [TSource_construct, if_neg h1, if_neg h2, if_neg h3, if_neg h4, if_neg h5]
  · intro conv toks hp
    rw [TSource_construct, if_pos rfl, hp]
  · intro conv toks hp
    rw [TSource_construct, if_neg (by decide), if_pos rfl, hp]
  · intro conv toks hp
    rw [TSource_construct, if_neg (by decide), if_neg (by decide), if_pos rfl, hp]
  · intro conv toks hp
    rw [TSource_construct, if_neg (by decide), if_neg (by decide), if_neg (by decide),
      if_pos rfl, hp]
  · intro conv toks hp
    rw [TSource_construct, if_neg (by decide), if_neg (by decide), if_neg (by decide),
      if_neg (by decide), if_pos rfl, hp]
  · intro name counter t pos E phi theta pol h1 h2 h3
    rw [TParticleSource_CreateParticle, if_neg h1, if_neg h2, if_neg h3]

/-- Witness for C9: the mode garbage and the particle name muon both take
the fatal paths. -/
theorem C9_fatal_config_witness :
    TSource_construct 1 "garbage" [] = TSourceResult.fatalExit (-1) "garbage" ∧
    TParticleSource_CreateParticle "muon" 0 0 ![0, 0, 0] 0 0 0 0
      = FactoryResult.fatalExit (-1) "muon" :=
  ⟨C9_fatal_config.1 1 "garbage" [] (by decide),
   C9_fatal_config.2.2.2.2.2.2 "muon" 0 0 ![0, 0, 0] 0 0 0 0 (by decide) (by decide) (by decide)⟩

/-- C10: with a nonempty emitting list and a drawn value within the total
area sum, the selection loop stops at a valid list element (so the
subsequent normal and vertex dereferences stay in bounds); on an empty list,
or when the drawn value exceeds the actual (nonnegative) area sum, the loop
falls off the end and the C++ code dereferences the end iterator. -/
theorem C10_iterator_safety :
    (∀ (tris : List TTriangle) (u : ℝ), tris ≠ [] → u ≤ cumArea tris tris.length →
       ∃ i tri, selectSourceTri u 0 tris 0 = some (i, tri) ∧ i < tris.length) ∧
    (∀ (u S : ℝ) (idx : ℕ), selectSourceTri u S [] idx = none) ∧
    (∀ (tris : List TTriangle) (u : ℝ), (∀ tri ∈ tris, 0 ≤ tri.area) →
       cumArea tris tris.length < u → selectSourceTri u 0 tris 0 = none) := by
  refine ⟨?_, selectSourceTri_nil, ?_⟩
  · intro tris u hne hsum
    obtain ⟨⟨i, tri⟩, h⟩ := selectSourceTri_total u tris 0 0 hne (by rw [zero_add]; exact hsum)
    obtain ⟨j, hj1, hj2, _, _⟩ := selectSourceTri_some u tris 0 0 i tri h
    obtain ⟨hlt, _⟩ := List.get?_eq_some.mp hj2
    exact ⟨i, tri, h, by omega⟩
  · intro tris u hpos hsum
    exact selectSourceTri_gt u tris 0 0 hpos (by rw [zero_add]; exact hsum)

/-- Witness for C10: the three cases at a concrete one-triangle list. -/
theorem C10_iterator_safety_witness :
    (∃ i tri, selectSourceTri 1 0 [triUnit] 0 = some (i, tri) ∧ i < [triUnit].length) ∧
    selectSourceTri 1 0 ([] : List TTriangle) 0 = none ∧
    selectSourceTri 2 0 [triUnit] 0 = none :=
  ⟨C10_iterator_safety.1 [triUnit] 1 (by simp) (by norm_num [cumArea, triUnit]),
   C10_iterator_safety.2.1 1 0 0,
   C10_iterator_safety.2.2 [triUnit] 2
     (by intro tri htri; rw [List.mem_singleton] at htri; subst htri; norm_num [triUnit])
     (by norm_num [cumArea, triUnit])⟩

/-- Concrete evaluation: the unweighted neutron cuboid call with the
all-zeros generator returns the particle with id 1 and consumes the seven
draws time, spectrum, angles, polarization, then the three position draws. -/
theorem volumeUnweighted_eval :
    TVolumeSource_CreateParticle hstartConst
        (TCuboidVolumeSource_RandomPointInSourceVolume cubeUnit) srcNeutronUnweighted
        mcAcceptNow 0 ⟨0, []⟩
      = (CreateResult.particle ⟨1, PType.neutron, 0, ![0, 0, 0], 1, 0, 0, 0, PStatus.normal⟩ 1,
         ⟨7, [DrawCall.uniformDist 0 1, DrawCall.spectrum "neutron",
              DrawCall.angularDist "neutron", DrawCall.dicePolarisation "neutron",
              DrawCall.uniformDist 0 1, DrawCall.uniformDist 0 1,
              DrawCall.uniformDist 0 1]⟩) := rfl

/-- Concrete evaluation: the weighted neutron cuboid call with the
all-zeros generator accepts its first candidate (the acceptance draw 0 is
below sqrt(1) = 1 and the kinetic energy 1 is positive) and returns a
normal-status particle with id 1, leaving the counter at 1. -/
theorem volumeAcceptNow_eval :
    ∃ p s2, TVolumeSource_CreateParticle hstartConst
        (TCuboidVolumeSource_RandomPointInSourceVolume cubeUnit) srcNeutronWeighted
        mcAcceptNow 0 ⟨0, []⟩ = (CreateResult.particle p 1, s2)
      ∧ p.num = 1 ∧ p.status = PStatus.normal := by
  have hname : validName srcNeutronWeighted.fParticleName := Or.inl rfl
  obtain ⟨ptA, hfacA⟩ := factory_valid srcNeutronWeighted.fParticleName hname 0
    (mcAcceptNow.u 0)
    (TCuboidVolumeSource_RandomPointInSourceVolume cubeUnit mcAcceptNow
      (prefixVolMCS srcNeutronWeighted)).1
    (mcAcceptNow.spec 1) (mcAcceptNow.ang 2).1 (mcAcceptNow.ang 2).2 (mcAcceptNow.pol 3)
  have hacc : mcAcceptNow.u ((TCuboidVolumeSource_RandomPointInSourceVolume cubeUnit
        mcAcceptNow (prefixVolMCS srcNeutronWeighted)).2).k
      < Real.sqrt ((mcAcceptNow.spec 1
          - (hstartConst (TCuboidVolumeSource_RandomPointInSourceVolume cubeUnit
              mcAcceptNow (prefixVolMCS srcNeutronWeighted)).1 - mcAcceptNow.spec 1))
        / mcAcceptNow.spec 1) := by
    show (0 : ℝ) < Real.sqrt ((1 - (1 - 1)) / 1)
    rw [show ((1 : ℝ) - (1 - 1)) / 1 = 1 by norm_num, Real.sqrt_one]
    norm_num
  have hE : 0 < mcAcceptNow.spec 1
      - (hstartConst (TCuboidVolumeSource_RandomPointInSourceVolume cubeUnit
          mcAcceptNow (prefixVolMCS srcNeutronWeighted)).1 - mcAcceptNow.spec 1) := by
    show (0 : ℝ) < 1 - (1 - 1)
    norm_num
  have heqA := diceLoop_accept hstartConst
    (TCuboidVolumeSource_RandomPointInSourceVolume cubeUnit)
    srcNeutronWeighted.fParticleName (mcAcceptNow.u 0) (mcAcceptNow.spec 1)
    (mcAcceptNow.ang 2).1 (mcAcceptNow.ang 2).2 (mcAcceptNow.pol 3) mcAcceptNow
    (TCuboidVolumeSource_RandomPointInSourceVolume cubeUnit mcAcceptNow
      (prefixVolMCS srcNeutronWeighted)).1
    (mcAcceptNow.spec 1) 0
    (TCuboidVolumeSource_RandomPointInSourceVolume cubeUnit mcAcceptNow
      (prefixVolMCS srcNeutronWeighted)).2
    0 0 _ _ (by omega) hfacA hacc hE
  obtain ⟨ptB, hfacB⟩ := factory_valid srcNeutronWeighted.fParticleName hname (0 + 1 - 1)
    (mcAcceptNow.u 0)
    (TCuboidVolumeSource_RandomPointInSourceVolume cubeUnit mcAcceptNow
      (prefixVolMCS srcNeutronWeighted)).1
    (mcAcceptNow.spec 1
      - (hstartConst (TCuboidVolumeSource_RandomPointInSourceVolume cubeUnit
          mcAcceptNow (prefixVolMCS srcNeutronWeighted)).1 - mcAcceptNow.spec 1))
    (mcAcceptNow.ang 2).1 (mcAcceptNow.ang 2).2 (mcAcceptNow.pol 3)
  have call2 := volumeCreate_psw_found hstartConst
    (TCuboidVolumeSource_RandomPointInSourceVolume cubeUnit) srcNeutronWeighted
    mcAcceptNow 0 (0 + 1) _ _ (0 + 1 - 1) _ _ _ rfl heqA hfacB
  exact ⟨_, _, call2, rfl, rfl⟩

/-- C1: when no candidate is ever accepted, the phase-space loop performs
MAX_DICE_ROLL + 1 = 42,000,001 provisional trials (the loop bound at
source.cpp line 105 is nroll <= MAX_DICE_ROLL starting from 0), then the
call returns the last provisional particle with the sentinel status and the
run continues (no fatal exit); the abort message and the constant's own
comment claim 42,000,000 tries, one fewer than the loop performs. -/
theorem C1_trial_cap_exhaustion (hstartOf : Point → ℝ)
    (randomPoint : MC → MCS → Point × MCS) (src : TVolumeSourceData) (mc : MC)
    (counter : ℕ)
    (hname : validName src.fParticleName)
    (hpsw : src.fPhaseSpaceWeighting = true)
    (hrej : ∀ k q, ¬ mc.u k < Real.sqrt
      ((mc.spec 1 - (hstartOf q - mc.spec 1)) / mc.spec 1)) :
    (∃ p s2, diceLoop hstartOf randomPoint src.fParticleName (mc.u 0) (mc.spec 1)
        (mc.ang 2).1 (mc.ang 2).2 (mc.pol 3) mc
        (randomPoint mc (prefixVolMCS src)).1 (mc.spec 1) counter
        (randomPoint mc (prefixVolMCS src)).2 0 0
      = (DiceLoopResult.notFound (MAX_DICE_ROLL + 1) p counter, s2)
      ∧ p.status = PStatus.initialNotFound ∧ p.num = counter + 1) ∧
    (∃ p c2 s2, TVolumeSource_CreateParticle hstartOf randomPoint src mc counter ⟨0, []⟩
      = (CreateResult.particle p c2, s2)
      ∧ p.status = PStatus.initialNotFound ∧ c2 = counter) ∧
    MAX_DICE_ROLL + 1 = 42000001 := by
  obtain ⟨p, s2, heq, hnum, hstat⟩ := diceLoop_allReject hstartOf randomPoint
    src.fParticleName (mc.u 0) (mc.spec 1) (mc.ang 2).1 (mc.ang 2).2 (mc.pol 3) mc
    hname hrej MAX_DICE_ROLL 0 (by omega)
    (randomPoint mc (prefixVolMCS src)).1 (mc.spec 1) counter
    (randomPoint mc (prefixVolMCS src)).2 0
  have e : 0 + MAX_DICE_ROLL + 1 = MAX_DICE_ROLL + 1 := by omega
  rw [e] at heq
  have call1 := volumeCreate_psw_notFound hstartOf randomPoint src mc counter
    (MAX_DICE_ROLL + 1) p counter s2 hpsw heq
  exact ⟨⟨p, s2, heq, hstat, hnum⟩, ⟨p, counter, s2, call1, hstat, rfl⟩, rfl⟩

/-- Witness for C1: the constant-1 generator with a field read-back equal to
the total energy rejects every candidate. -/
theorem C1_trial_cap_exhaustion_witness :
    (∃ p s2, diceLoop hstartConst
        (TCuboidVolumeSource_RandomPointInSourceVolume cubeUnit)
        srcNeutronWeighted.fParticleName (mcRejectAll.u 0) (mcRejectAll.spec 1)
        (mcRejectAll.ang 2).1 (mcRejectAll.ang 2).2 (mcRejectAll.pol 3) mcRejectAll
        (TCuboidVolumeSource_RandomPointInSourceVolume cubeUnit mcRejectAll
          (prefixVolMCS srcNeutronWeighted)).1
        (mcRejectAll.spec 1) 0
        (TCuboidVolumeSource_RandomPointInSourceVolume cubeUnit mcRejectAll
          (prefixVolMCS srcNeutronWeighted)).2 0 0
      = (DiceLoopResult.notFound (MAX_DICE_ROLL + 1) p 0, s2)
      ∧ p.status = PStatus.initialNotFound ∧ p.num = 0 + 1) ∧
    (∃ p c2 s2, TVolumeSource_CreateParticle hstartConst
        (TCuboidVolumeSource_RandomPointInSourceVolume cubeUnit) srcNeutronWeighted
        mcRejectAll 0 ⟨0, []⟩
      = (CreateResult.particle p c2, s2)
      ∧ p.status = PStatus.initialNotFound ∧ c2 = 0) ∧
    MAX_DICE_ROLL + 1 = 42000001 :=
  C1_trial_cap_exhaustion hstartConst
    (TCuboidVolumeSource_RandomPointInSourceVolume cubeUnit) srcNeutronWeighted
    mcRejectAll 0 (Or.inl rfl) rfl
    (by
      intro k q
      show ¬ (1 : ℝ) < Real.sqrt ((1 - (1 - 1)) / 1)
      rw [show ((1 : ℝ) - (1 - 1)) / 1 = 1 by norm_num, Real.sqrt_one]
      norm_num)

/-- C2: at any iteration within the trial budget, the dice loop breaks with
the candidate position, the kinetic energy H - V (V = Hstart - H) and one
more trial counted, exactly when the uniform(0,1) draw is strictly below
sqrt((H-V)/H) and that kinetic energy is strictly positive; and whenever the
loop of a weighted volume call breaks, the final particle is constructed at
the accepted position with the accepted energy (the provisional particle was
already discarded inside the loop). -/
theorem C2_acceptance_rule (hstartOf : Point → ℝ)
    (randomPoint : MC → MCS → Point × MCS) (name : String)
    (t H phi_v theta_v : ℝ) (pol : Int) (mc : MC) (pos : Point) (E : ℝ)
    (counter : ℕ) (s : MCS) (trials nroll : ℕ)
    (hname : validName name) (hroll : nroll ≤ MAX_DICE_ROLL) :
    (diceLoop hstartOf randomPoint name t H phi_v theta_v pol mc pos E counter s trials nroll
        = (DiceLoopResult.found (trials + 1) pos (H - (hstartOf pos - H)) counter,
           ⟨s.k + 1, s.log ++ [DrawCall.uniformDist 0 1]⟩)
      ↔ (mc.u s.k < Real.sqrt ((H - (hstartOf pos - H)) / H)
         ∧ 0 < H - (hstartOf pos - H))) ∧
    (∀ (src : TVolumeSourceData) (mc2 : MC) (c0 tr : ℕ) (pos2 : Point) (E2 : ℝ)
       (c2 : ℕ) (s2 : MCS),
       src.fPhaseSpaceWeighting = true → validName src.fParticleName →
       diceLoop hstartOf randomPoint src.fParticleName (mc2.u 0) (mc2.spec 1)
           (mc2.ang 2).1 (mc2.ang 2).2 (mc2.pol 3) mc2
           (randomPoint mc2 (prefixVolMCS src)).1 (mc2.spec 1) c0
           (randomPoint mc2 (prefixVolMCS src)).2 0 0
         = (DiceLoopResult.found tr pos2 E2 c2, s2) →
       ∃ pt, TVolumeSource_CreateParticle hstartOf randomPoint src mc2 c0 ⟨0, []⟩
         = (CreateResult.particle
             ⟨c2 + 1, pt, mc2.u 0, pos2, E2, (mc2.ang 2).1, (mc2.ang 2).2, mc2.pol 3,
              PStatus.normal⟩ (c2 + 1), s2)) := by
  obtain ⟨pt0, hfac⟩ := factory_valid name hname counter t pos H phi_v theta_v pol
  constructor
  · constructor
    · intro heq
      by_cases hacc : mc.u s.k < Real.sqrt ((H - (hstartOf pos - H)) / H)
      · by_cases hE : 0 < H - (hstartOf pos - H)
        · exact ⟨hacc, hE⟩
        · exfalso
          rw [diceLoop_acceptNeg hstartOf randomPoint name t H phi_v theta_v pol mc pos E
            counter s trials nroll _ _ hroll hfac hacc hE] at heq
          obtain ⟨i1, _, _, _⟩ := diceLoop_inv hstartOf randomPoint name t H phi_v theta_v
            pol mc hname (MAX_DICE_ROLL + 1) (nroll + 1) (by omega) _ _ _ _ _ _ _ heq
          have := i1 (trials + 1) pos (H - (hstartOf pos - H)) counter rfl
          omega
      · exfalso
        by_cases hlast : MAX_DICE_ROLL ≤ nroll
        · rw [diceLoop_rejectLast hstartOf randomPoint name t H phi_v theta_v pol mc pos E
            counter s trials nroll _ _ hroll hfac hacc hlast] at heq
          injection heq with h1 h2
          exact DiceLoopResult.noConfusion h1
        · rw [diceLoop_rejectCont hstartOf randomPoint name t H phi_v theta_v pol mc pos E
            counter s trials nroll _ _ hroll hfac hacc hlast] at heq
          obtain ⟨i1, _, _, _⟩ := diceLoop_inv hstartOf randomPoint name t H phi_v theta_v
            pol mc hname (MAX_DICE_ROLL + 1) (nroll + 1) (by omega) _ _ _ _ _ _ _ heq
          have := i1 (trials + 1) pos (H - (hstartOf pos - H)) counter rfl
          omega
    · rintro ⟨hacc, hE⟩
      have heq := diceLoop_accept hstartOf randomPoint name t H phi_v theta_v pol mc pos E
        counter s trials nroll _ _ hroll hfac hacc hE
      simpa using heq
  · intro src mc2 c0 tr pos2 E2 c2 s2 hpsw hname2 hdl
    obtain ⟨pt, hfacB⟩ := factory_valid src.fParticleName hname2 c2 (mc2.u 0) pos2 E2
      (mc2.ang 2).1 (mc2.ang 2).2 (mc2.pol 3)
    exact ⟨pt, volumeCreate_psw_found hstartOf randomPoint src mc2 c0 tr pos2 E2 c2 s2
      _ _ hpsw hdl hfacB⟩

/-- Witness for C2 at the all-zeros generator, H = 1, V = 0, first
iteration. -/
theorem C2_acceptance_rule_witness :
    (diceLoop hstartConst (TCuboidVolumeSource_RandomPointInSourceVolume cubeUnit)
        "neutron" 0 1 0 0 0 mcAcceptNow ![0, 0, 0] 1 0 ⟨0, []⟩ 0 0
        = (DiceLoopResult.found (0 + 1) ![0, 0, 0] (1 - (hstartConst ![0, 0, 0] - 1)) 0,
           ⟨1, [DrawCall.uniformDist 0 1]⟩)
      ↔ (mcAcceptNow.u 0 < Real.sqrt ((1 - (hstartConst ![0, 0, 0] - 1)) / 1)
         ∧ 0 < 1 - (hstartConst ![0, 0, 0] - 1))) ∧
    (∀ (src : TVolumeSourceData) (mc2 : MC) (c0 tr : ℕ) (pos2 : Point) (E2 : ℝ)
       (c2 : ℕ) (s2 : MCS),
       src.fPhaseSpaceWeighting = true → validName src.fParticleName →
       diceLoop hstartConst (TCuboidVolumeSource_RandomPointInSourceVolume cubeUnit)
           src.fParticleName (mc2.u 0) (mc2.spec 1)
           (mc2.ang 2).1 (mc2.ang 2).2 (mc2.pol 3) mc2
           (TCuboidVolumeSource_RandomPointInSourceVolume cubeUnit mc2 (prefixVolMCS src)).1
           (mc2.spec 1) c0
           (TCuboidVolumeSource_RandomPointInSourceVolume cubeUnit mc2 (prefixVolMCS src)).2 0 0
         = (DiceLoopResult.found tr pos2 E2 c2, s2) →
       ∃ pt, TVolumeSource_CreateParticle hstartConst
           (TCuboidVolumeSource_RandomPointInSourceVolume cubeUnit) src mc2 c0 ⟨0, []⟩
         = (CreateResult.particle
             ⟨c2 + 1, pt, mc2.u 0, pos2, E2, (mc2.ang 2).1, (mc2.ang 2).2, mc2.pol 3,
              PStatus.normal⟩ (c2 + 1), s2)) :=
  C2_acceptance_rule hstartConst (TCuboidVolumeSource_RandomPointInSourceVolume cubeUnit)
    "neutron" 0 1 0 0 0 mcAcceptNow ![0, 0, 0] 1 0 ⟨0, []⟩ 0 0 (Or.inl rfl) (by omega)

/-- C3 counterexample: with the all-rejecting generator the weighted call
returns the sentinel particle with id 1 while the counter stays at 0; the
immediately following call (counter still 0) returns a particle that again
has id 1. Two particles returned by the source hierarchy share the id 1, so
the id is neither strictly increasing nor never reused, and the decrement
was applied to a probe that WAS returned. -/
theorem C3_id_reuse_counterexample :
    CreateResult.retNum (TVolumeSource_CreateParticle hstartConst
        (TCuboidVolumeSource_RandomPointInSourceVolume cubeUnit) srcNeutronWeighted
        mcRejectAll 0 ⟨0, []⟩).1 = some 1 ∧
    CreateResult.retCounter (TVolumeSource_CreateParticle hstartConst
        (TCuboidVolumeSource_RandomPointInSourceVolume cubeUnit) srcNeutronWeighted
        mcRejectAll 0 ⟨0, []⟩).1 = some 0 ∧
    CreateResult.retStatus (TVolumeSource_CreateParticle hstartConst
        (TCuboidVolumeSource_RandomPointInSourceVolume cubeUnit) srcNeutronWeighted
        mcRejectAll 0 ⟨0, []⟩).1 = some PStatus.initialNotFound ∧
    CreateResult.retNum (TVolumeSource_CreateParticle hstartConst
        (TCuboidVolumeSource_RandomPointInSourceVolume cubeUnit) srcNeutronWeighted
        mcAcceptNow 0 ⟨0, []⟩).1 = some 1 := by
  obtain ⟨p, s2, heq, hnum, hstat⟩ := diceLoop_allReject hstartConst
    (TCuboidVolumeSource_RandomPointInSourceVolume cubeUnit)
    srcNeutronWeighted.fParticleName (mcRejectAll.u 0) (mcRejectAll.spec 1)
    (mcRejectAll.ang 2).1 (mcRejectAll.ang 2).2 (mcRejectAll.pol 3) mcRejectAll
    (Or.inl rfl)
    (by
      intro k q
      show ¬ (1 : ℝ) < Real.sqrt ((1 - (1 - 1)) / 1)
      rw [show ((1 : ℝ) - (1 - 1)) / 1 = 1 by norm_num, Real.sqrt_one]
      norm_num)
    MAX_DICE_ROLL 0 (by omega)
    (TCuboidVolumeSource_RandomPointInSourceVolume cubeUnit mcRejectAll
      (prefixVolMCS srcNeutronWeighted)).1
    (mcRejectAll.spec 1) 0
    (TCuboidVolumeSource_RandomPointInSourceVolume cubeUnit mcRejectAll
      (prefixVolMCS srcNeutronWeighted)).2 0
  have call1 := volumeCreate_psw_notFound hstartConst
    (TCuboidVolumeSource_RandomPointInSourceVolume cubeUnit) srcNeutronWeighted
    mcRejectAll 0 (0 + MAX_DICE_ROLL + 1) p 0 s2 rfl heq
  obtain ⟨p2, s3, call2, hnum2, _⟩ := volumeAcceptNow_eval
  refine ⟨?_, ?_, ?_, ?_⟩
  · rw [call1]
    simp [CreateResult.retNum, hnum]
  · rw [call1]
    simp [CreateResult.retCounter]
  · rw [call1]
    simp [CreateResult.retStatus, hstat]
  · rw [call2]
    simp [CreateResult.retNum, hnum2]

/-- C3 amended: ids are assigned by pre-increment (the first returned id is
counter + 1, so ids start at 1 from the initial counter 0); across volume
calls whose phase-space search does not exhaust the budget, the returned
particle's id is counter + 1 and the counter advances to counter + 1, so ids
are strictly increasing and never reused; but when the trial budget is
exhausted, the returned sentinel probe keeps id counter + 1 while the
counter stays at counter (the decrement at source.cpp line 110 was applied
to it even though it is returned), so its id is shared with the next
returned particle. -/
theorem C3_id_monotonic_amended (hstartOf : Point → ℝ)
    (randomPoint : MC → MCS → Point × MCS) (src : TVolumeSourceData) (mc : MC)
    (counter : ℕ) (s2 : MCS) (p : TParticle) (c2 : ℕ)
    (hname : validName src.fParticleName)
    (hcall : TVolumeSource_CreateParticle hstartOf randomPoint src mc counter ⟨0, []⟩
      = (CreateResult.particle p c2, s2)) :
    (p.status = PStatus.normal → p.num = counter + 1 ∧ c2 = counter + 1) ∧
    (p.status = PStatus.initialNotFound → p.num = counter + 1 ∧ c2 = counter) := by
  rw [volumeCreate_unfold] at hcall
  by_cases hpsw : src.fPhaseSpaceWeighting = true
  · rw [if_pos hpsw] at hcall
    rcases hdl : diceLoop hstartOf randomPoint src.fParticleName (mc.u 0) (mc.spec 1)
        (mc.ang 2).1 (mc.ang 2).2 (mc.pol 3) mc
        (randomPoint mc (prefixVolMCS src)).1 (mc.spec 1) counter
        (randomPoint mc (prefixVolMCS src)).2 0 0 with ⟨res, s3⟩
    rw [hdl] at hcall
    obtain ⟨i1, i2, i3, i4⟩ := diceLoop_inv hstartOf randomPoint src.fParticleName
      (mc.u 0) (mc.spec 1) (mc.ang 2).1 (mc.ang 2).2 (mc.pol 3) mc hname
      (MAX_DICE_ROLL + 1) 0 (by omega) _ _ _ _ _ _ _ hdl
    cases res with
    | found tr pos2 E2 c3 =>
      obtain ⟨hc3, _⟩ := i1 tr pos2 E2 c3 rfl
      obtain ⟨pt, hfac⟩ := factory_valid src.fParticleName hname c3 (mc.u 0) pos2 E2
        (mc.ang 2).1 (mc.ang 2).2 (mc.pol 3)
      have hcall2 : (match TParticleSource_CreateParticle src.fParticleName c3 (mc.u 0)
            pos2 E2 (mc.ang 2).1 (mc.ang 2).2 (mc.pol 3) with
          | FactoryResult.made pp cc => (CreateResult.particle pp cc, s3)
          | FactoryResult.fatalExit code nm => (CreateResult.fatalExit code nm, s3))
          = (CreateResult.particle p c2, s2) := hcall
      rw [hfac] at hcall2
      have hcall3 : (CreateResult.particle
          ⟨c3 + 1, pt, mc.u 0, pos2, E2, (mc.ang 2).1, (mc.ang 2).2, mc.pol 3,
            PStatus.normal⟩ (c3 + 1), s3)
          = (CreateResult.particle p c2, s2) := hcall2
      injection hcall3 with h1 h2
      injection h1 with e1 e2
      subst e1 e2 hc3
      exact ⟨fun _ => ⟨rfl, rfl⟩, fun hh => absurd hh (by simp)⟩
    | notFound tr pp c3 =>
      obtain ⟨hc3, hnum, hstat, _⟩ := i2 tr pp c3 rfl
      injection hcall with h1 h2
      injection h1 with e1 e2
      subst e1 e2 hc3
      refine ⟨fun hh => absurd hh (by simp [hstat]), fun _ => ⟨hnum, rfl⟩⟩
    | exhausted pos2 E2 c3 =>
      have hc3 := i3 pos2 E2 c3 rfl
      obtain ⟨pt, hfac⟩ := factory_valid src.fParticleName hname c3 (mc.u 0) pos2 E2
        (mc.ang 2).1 (mc.ang 2).2 (mc.pol 3)
      have hcall2 : (match TParticleSource_CreateParticle src.fParticleName c3 (mc.u 0)
            pos2 E2 (mc.ang 2).1 (mc.ang 2).2 (mc.pol 3) with
          | FactoryResult.made pp cc => (CreateResult.particle pp cc, s3)
          | FactoryResult.fatalExit code nm => (CreateResult.fatalExit code nm, s3))
          = (CreateResult.particle p c2, s2) := hcall
      rw [hfac] at hcall2
      have hcall3 : (CreateResult.particle
          ⟨c3 + 1, pt, mc.u 0, pos2, E2, (mc.ang 2).1, (mc.ang 2).2, mc.pol 3,
            PStatus.normal⟩ (c3 + 1), s3)
          = (CreateResult.particle p c2, s2) := hcall2
      injection hcall3 with h1 h2
      injection h1 with e1 e2
      subst e1 e2 hc3
      exact ⟨fun _ => ⟨rfl, rfl⟩, fun hh => absurd hh (by simp)⟩
    | fatalExit code nm =>
      exact absurd rfl (i4 code nm)
  · rw [if_neg hpsw] at hcall
    obtain ⟨pt, hfac⟩ := factory_valid src.fParticleName hname counter (mc.u 0)
      (randomPoint mc (prefixVolMCS src)).1 (mc.spec 1) (mc.ang 2).1 (mc.ang 2).2
      (mc.pol 3)
    rw [hfac] at hcall
    injection hcall with h1 h2
    injection h1 with e1 e2
    subst e1 e2
    exact ⟨fun _ => ⟨rfl, rfl⟩, fun hh => absurd hh (by simp)⟩

/-- Witness for C3 amended at the unweighted neutron call. -/
theorem C3_id_monotonic_amended_witness :
    ((⟨1, PType.neutron, 0, ![0, 0, 0], 1, 0, 0, 0, PStatus.normal⟩ : TParticle).status
        = PStatus.normal →
      (⟨1, PType.neutron, 0, ![0, 0, 0], 1, 0, 0, 0, PStatus.normal⟩ : TParticle).num = 0 + 1
      ∧ 1 = 0 + 1) ∧
    ((⟨1, PType.neutron, 0, ![0, 0, 0], 1, 0, 0, 0, PStatus.normal⟩ : TParticle).status
        = PStatus.initialNotFound →
      (⟨1, PType.neutron, 0, ![0, 0, 0], 1, 0, 0, 0, PStatus.normal⟩ : TParticle).num = 0 + 1
      ∧ 1 = 0) :=
  C3_id_monotonic_amended hstartConst
    (TCuboidVolumeSource_RandomPointInSourceVolume cubeUnit) srcNeutronUnweighted
    mcAcceptNow 0 _ _ _ (Or.inl rfl) volumeUnweighted_eval

/-- C7 counterexample: in a volume-source call, the polarization draw (trace
index 3) happens before the position draws (trace indices 4 to 6), so the
claimed common order (selection and position draws before the energy/angle
draws, polarization last) is violated by the volume source. -/
theorem C7_draw_order_counterexample :
    ((TVolumeSource_CreateParticle hstartConst
        (TCuboidVolumeSource_RandomPointInSourceVolume cubeUnit) srcNeutronUnweighted
        mcAcceptNow 0 ⟨0, []⟩).2).log
      = [DrawCall.uniformDist 0 1, DrawCall.spectrum "neutron",
         DrawCall.angularDist "neutron", DrawCall.dicePolarisation "neutron",
         DrawCall.uniformDist 0 1, DrawCall.uniformDist 0 1, DrawCall.uniformDist 0 1] ∧
    ((TVolumeSource_CreateParticle hstartConst
        (TCuboidVolumeSource_RandomPointInSourceVolume cubeUnit) srcNeutronUnweighted
        mcAcceptNow 0 ⟨0, []⟩).2).log.get? 3
      = some (DrawCall.dicePolarisation "neutron") ∧
    ((TVolumeSource_CreateParticle hstartConst
        (TCuboidVolumeSource_RandomPointInSourceVolume cubeUnit) srcNeutronUnweighted
        mcAcceptNow 0 ⟨0, []⟩).2).log.get? 4
      = some (DrawCall.uniformDist 0 1) := by
  refine ⟨?_, ?_, ?_⟩ <;> rw [volumeUnweighted_eval] <;> rfl

/-- C7 amended: the surface source consumes its draws in the order spawn
time, triangle selection, the two barycentric position draws, energy
spectrum, azimuth, Lambert polar angle, then polarization; the volume source
consumes spawn time, energy spectrum, angular distribution, polarization,
and only then the position draws (shown for the cuboid generator with
weighting disabled; a weighted call appends further acceptance and position
draws after these). -/
theorem C7_draw_order_amended :
    (∀ (tol : ℝ) (rotateVector : Point → Point → Point) (src : TSurfaceSourceData)
       (mc : MC) (counter : ℕ) (itri : ℕ × TTriangle),
       selectSourceTri (mc.u 1) 0 src.sourcetris 0 = some itri →
       ((TSurfaceSource_CreateParticle tol rotateVector src mc counter ⟨0, []⟩).2).log
         = [DrawCall.uniformDist 0 src.fActiveTime, DrawCall.uniformDist 0 src.sourcearea,
            DrawCall.uniformDist 0 1, DrawCall.uniformDist 0 1,
            DrawCall.spectrum src.fParticleName, DrawCall.uniformDist 0 (2 * Real.pi),
            DrawCall.sinCosDist 0 ((0.5 : ℝ) * Real.pi),
            DrawCall.dicePolarisation src.fParticleName]) ∧
    (∀ (d : TCuboidVolumeSourceData) (hstartOf : Point → ℝ) (src : TVolumeSourceData)
       (mc : MC) (counter : ℕ), src.fPhaseSpaceWeighting = false →
       ((TVolumeSource_CreateParticle hstartOf
           (TCuboidVolumeSource_RandomPointInSourceVolume d) src mc counter ⟨0, []⟩).2).log
         = [DrawCall.uniformDist 0 src.fActiveTime, DrawCall.spectrum src.fParticleName,
            DrawCall.angularDist src.fParticleName,
            DrawCall.dicePolarisation src.fParticleName,
            DrawCall.uniformDist d.xmin d.xmax, DrawCall.uniformDist d.ymin d.ymax,
            DrawCall.uniformDist d.zmin d.zmax]) := by
  constructor
  · intro tol rotateVector src mc counter itri hsel
    exact surfaceCreate_log tol rotateVector src mc counter itri hsel
  · intro d hstartOf src mc counter hpsw
    rw [volumeCreate_nopsw hstartOf (TCuboidVolumeSource_RandomPointInSourceVolume d)
      src mc counter hpsw]
    rcases hf : TParticleSource_CreateParticle src.fParticleName counter (mc.u 0)
        (TCuboidVolumeSource_RandomPointInSourceVolume d mc (prefixVolMCS src)).1
        (mc.spec 1) (mc.ang 2).1 (mc.ang 2).2 (mc.pol 3) with ⟨pp, cc⟩ | ⟨code, nm⟩ <;>
      simp [hf, TCuboidVolumeSource_RandomPointInSourceVolume, MC.uniformDist, prefixVolMCS]

/-- Witness for C7 amended: the surface order at a one-triangle source with
the all-zeros generator, and the volume order at the unit cuboid. -/
theorem C7_draw_order_amended_witness :
    ((TSurfaceSource_CreateParticle 1 rotId surfNeutron mcAcceptNow 0 ⟨0, []⟩).2).log
      = [DrawCall.uniformDist 0 surfNeutron.fActiveTime,
         DrawCall.uniformDist 0 surfNeutron.sourcearea,
         DrawCall.uniformDist 0 1, DrawCall.uniformDist 0 1,
         DrawCall.spectrum surfNeutron.fParticleName, DrawCall.uniformDist 0 (2 * Real.pi),
         DrawCall.sinCosDist 0 ((0.5 : ℝ) * Real.pi),
         DrawCall.dicePolarisation surfNeutron.fParticleName] :=
  C7_draw_order_amended.1 1 rotId surfNeutron mcAcceptNow 0 (0, triUnit)
    (by
      show selectSourceTri (mcAcceptNow.u 1) 0 [triUnit] 0 = some (0, triUnit)
      rw [selectSourceTri, if_pos (show mcAcceptNow.u 1 ≤ 0 + triUnit.area from by
        show (0 : ℝ) ≤ 0 + 1
        norm_num)])

end PentrackSource